import Mathlib

/-!
Verification development for the h3-rs hexagonal hierarchical grid library.

The Rust sources (h3_index.rs, algos.rs, base_cells.rs, coord_ijk.rs,
directed_edge.rs, iterators.rs) are shallowly embedded below:

* 64-bit cell indices are `Nat` values; every bit operation of the source is
  reproduced with `&&&`, `|||`, `>>>`, `<<<` on `Nat` (mask constants are the
  same literals as in h3_index.rs, so results of the field setters stay below
  2 ^ 64 exactly when the input does).
* `i32`/`i64` quantities of the source are embedded as `Int`; where the Rust
  code can overflow a 32-bit register the wrap-around is made explicit with
  `wrap32` (release-build two's-complement semantics).
* Rust `Result<T, Error>` becomes `Except Error T`; bounded `for`/`while`
  loops become structural recursion on an explicit iteration-count argument.
-/

/-- Error taxonomy of error.rs. -/
inductive Error where
  | Failed
  | Domain
  | LatLngDomain
  | ResDomain
  | CellInvalid
  | DirectedEdgeInvalid
  | UndirectedEdgeInvalid
  | VertexInvalid
  | Pentagon
  | DuplicateInput
  | NotNeighbors
  | ResMismatch
  | Memory
  | MemoryBounds
  | OptionInvalid
deriving DecidableEq, Repr

/-- MAX_H3_RES from constants.rs. -/
def MAX_H3_RES : Nat := 15

/-- NUM_BASE_CELLS from constants.rs. -/
def NUM_BASE_CELLS : Nat := 122

/-- H3_CELL_MODE from constants.rs. -/
def H3_CELL_MODE : Nat := 1

/-- H3_DIRECTEDEDGE_MODE from constants.rs. -/
def H3_DIRECTEDEDGE_MODE : Nat := 2

/-- H3_NULL sentinel (lib.rs). -/
def H3_NULL : Nat := 0

/-- H3_INIT from h3_index.rs: mode 0, res 0, base cell 0, every digit 7. -/
def H3_INIT : Nat := 35184372088831

/-- All 64 bits set; used to build the negated masks of h3_index.rs. -/
def U64_MAX : Nat := 2 ^ 64 - 1

/-- H3_HIGH_BIT_MASK from h3_index.rs. -/
def H3_HIGH_BIT_MASK : Nat := 1 <<< 63

/-- H3_MODE_MASK from h3_index.rs. -/
def H3_MODE_MASK : Nat := 15 <<< 59

/-- H3_MODE_MASK_NEGATIVE from h3_index.rs. -/
def H3_MODE_MASK_NEGATIVE : Nat := U64_MAX ^^^ H3_MODE_MASK

/-- H3_BC_MASK from h3_index.rs. -/
def H3_BC_MASK : Nat := 127 <<< 45

/-- H3_BC_MASK_NEGATIVE from h3_index.rs. -/
def H3_BC_MASK_NEGATIVE : Nat := U64_MAX ^^^ H3_BC_MASK

/-- H3_RESERVED_MASK from h3_index.rs. -/
def H3_RESERVED_MASK : Nat := 7 <<< 56

/-- H3_RESERVED_MASK_NEGATIVE from h3_index.rs. -/
def H3_RESERVED_MASK_NEGATIVE : Nat := U64_MAX ^^^ H3_RESERVED_MASK

/-- H3_RES_MASK from h3_index.rs. -/
def H3_RES_MASK : Nat := 15 <<< 52

/-- H3_RES_MASK_NEGATIVE from h3_index.rs. -/
def H3_RES_MASK_NEGATIVE : Nat := U64_MAX ^^^ H3_RES_MASK

/-- H3_GET_HIGH_BIT from h3_index.rs. -/
def H3_GET_HIGH_BIT (h : Nat) : Nat := (h &&& H3_HIGH_BIT_MASK) >>> 63

/-- H3_GET_MODE from h3_index.rs. -/
def H3_GET_MODE (h : Nat) : Nat := (h &&& H3_MODE_MASK) >>> 59

/-- H3_SET_MODE from h3_index.rs. -/
def H3_SET_MODE (h v : Nat) : Nat := (h &&& H3_MODE_MASK_NEGATIVE) ||| (v <<< 59)

/-- H3_GET_BASE_CELL from h3_index.rs. -/
def H3_GET_BASE_CELL (h : Nat) : Nat := (h &&& H3_BC_MASK) >>> 45

/-- H3_SET_BASE_CELL from h3_index.rs. -/
def H3_SET_BASE_CELL (h bc : Nat) : Nat := (h &&& H3_BC_MASK_NEGATIVE) ||| (bc <<< 45)

/-- H3_GET_RESOLUTION from h3_index.rs. -/
def H3_GET_RESOLUTION (h : Nat) : Nat := (h &&& H3_RES_MASK) >>> 52

/-- H3_SET_RESOLUTION from h3_index.rs. -/
def H3_SET_RESOLUTION (h res : Nat) : Nat := (h &&& H3_RES_MASK_NEGATIVE) ||| (res <<< 52)

/-- H3_GET_RESERVED_BITS from h3_index.rs. -/
def H3_GET_RESERVED_BITS (h : Nat) : Nat := (h &&& H3_RESERVED_MASK) >>> 56

/-- H3_SET_RESERVED_BITS from h3_index.rs. -/
def H3_SET_RESERVED_BITS (h v : Nat) : Nat :=
  (h &&& H3_RESERVED_MASK_NEGATIVE) ||| (v <<< 56)

/-- H3_GET_INDEX_DIGIT from h3_index.rs: the 3-bit digit of resolution `res`.
    (`Direction::from_u64` of a 3-bit value is the value itself, with 7 the
    invalid digit.) -/
def H3_GET_INDEX_DIGIT (h res : Nat) : Nat :=
  (h >>> ((MAX_H3_RES - res) * 3)) &&& 7

/-- H3_SET_INDEX_DIGIT from h3_index.rs. -/
def H3_SET_INDEX_DIGIT (h res digit : Nat) : Nat :=
  (h &&& (U64_MAX ^^^ (7 <<< ((MAX_H3_RES - res) * 3)))) |||
    (digit <<< ((MAX_H3_RES - res) * 3))

/-- getResolution from h3_index.rs. -/
def getResolution (h : Nat) : Nat := H3_GET_RESOLUTION h

/-- isResolutionClassIII from h3_index.rs: odd resolutions are Class III. -/
def isResolutionClassIII (res : Nat) : Bool := res % 2 ≠ 0

/-- _rotate60ccw on a digit, from coord_ijk.rs. -/
def _rotate60ccw (digit : Nat) : Nat :=
  match digit with
  | 1 => 5
  | 5 => 4
  | 4 => 6
  | 6 => 2
  | 2 => 3
  | 3 => 1
  | d => d

/-- _rotate60cw on a digit, from coord_ijk.rs. -/
def _rotate60cw (digit : Nat) : Nat :=
  match digit with
  | 1 => 3
  | 3 => 2
  | 2 => 6
  | 6 => 4
  | 4 => 5
  | 5 => 1
  | d => d
/-- Per-base-cell neighbor table from base_cells.rs (baseCellNeighbors); 127 marks INVALID_BASE_CELL. -/
def baseCellNeighbors : List (List Nat) := [
  [0, 1, 5, 2, 4, 3, 8],
  [1, 7, 6, 9, 0, 3, 2],
  [2, 6, 10, 11, 0, 1, 5],
  [3, 13, 1, 7, 4, 12, 0],
  [4, 127, 15, 8, 3, 0, 12],
  [5, 2, 18, 10, 8, 0, 16],
  [6, 14, 11, 17, 1, 9, 2],
  [7, 21, 9, 19, 3, 13, 1],
  [8, 5, 22, 16, 4, 0, 15],
  [9, 19, 14, 20, 1, 7, 6],
  [10, 11, 24, 23, 5, 2, 18],
  [11, 17, 23, 25, 2, 6, 10],
  [12, 28, 13, 26, 4, 15, 3],
  [13, 26, 21, 29, 3, 12, 7],
  [14, 127, 17, 27, 9, 20, 6],
  [15, 22, 28, 31, 4, 8, 12],
  [16, 18, 33, 30, 8, 5, 22],
  [17, 11, 14, 6, 35, 25, 27],
  [18, 24, 30, 32, 5, 10, 16],
  [19, 34, 20, 36, 7, 21, 9],
  [20, 14, 19, 9, 40, 27, 36],
  [21, 38, 19, 34, 13, 29, 7],
  [22, 16, 41, 33, 15, 8, 31],
  [23, 24, 11, 10, 39, 37, 25],
  [24, 127, 32, 37, 10, 23, 18],
  [25, 23, 17, 11, 45, 39, 35],
  [26, 42, 29, 43, 12, 28, 13],
  [27, 40, 35, 46, 14, 20, 17],
  [28, 31, 42, 44, 12, 15, 26],
  [29, 43, 38, 47, 13, 26, 21],
  [30, 32, 48, 50, 16, 18, 33],
  [31, 41, 44, 53, 15, 22, 28],
  [32, 30, 24, 18, 52, 50, 37],
  [33, 30, 49, 48, 22, 16, 41],
  [34, 19, 38, 21, 54, 36, 51],
  [35, 46, 45, 56, 17, 27, 25],
  [36, 20, 34, 19, 55, 40, 54],
  [37, 39, 52, 57, 24, 23, 32],
  [38, 127, 34, 51, 29, 47, 21],
  [39, 37, 25, 23, 59, 57, 45],
  [40, 27, 36, 20, 60, 46, 55],
  [41, 49, 53, 61, 22, 33, 31],
  [42, 58, 43, 62, 28, 44, 26],
  [43, 62, 47, 64, 26, 42, 29],
  [44, 53, 58, 65, 28, 31, 42],
  [45, 39, 35, 25, 63, 59, 56],
  [46, 60, 56, 68, 27, 40, 35],
  [47, 38, 43, 29, 69, 51, 64],
  [48, 49, 30, 33, 67, 66, 50],
  [49, 127, 61, 66, 33, 48, 41],
  [50, 48, 32, 30, 70, 67, 52],
  [51, 69, 54, 71, 38, 47, 34],
  [52, 57, 70, 74, 32, 37, 50],
  [53, 61, 65, 75, 31, 41, 44],
  [54, 71, 55, 73, 34, 51, 36],
  [55, 40, 54, 36, 72, 60, 73],
  [56, 68, 63, 77, 35, 46, 45],
  [57, 59, 74, 78, 37, 39, 52],
  [58, 127, 62, 76, 44, 65, 42],
  [59, 63, 78, 79, 39, 45, 57],
  [60, 72, 68, 80, 40, 55, 46],
  [61, 53, 49, 41, 81, 75, 66],
  [62, 43, 58, 42, 82, 64, 76],
  [63, 127, 56, 45, 79, 59, 77],
  [64, 47, 62, 43, 84, 69, 82],
  [65, 58, 53, 44, 86, 76, 75],
  [66, 67, 81, 85, 49, 48, 61],
  [67, 66, 50, 48, 87, 85, 70],
  [68, 56, 60, 46, 90, 77, 80],
  [69, 51, 64, 47, 89, 71, 84],
  [70, 67, 52, 50, 83, 87, 74],
  [71, 89, 73, 91, 51, 69, 54],
  [72, 127, 73, 55, 80, 60, 88],
  [73, 91, 72, 88, 54, 71, 55],
  [74, 78, 83, 92, 52, 57, 70],
  [75, 65, 61, 53, 94, 86, 81],
  [76, 86, 82, 96, 58, 65, 62],
  [77, 63, 68, 56, 93, 79, 90],
  [78, 74, 59, 57, 95, 92, 79],
  [79, 78, 63, 59, 93, 95, 77],
  [80, 68, 72, 60, 99, 90, 88],
  [81, 85, 94, 101, 61, 66, 75],
  [82, 96, 84, 98, 62, 76, 64],
  [83, 127, 74, 70, 100, 87, 92],
  [84, 69, 82, 64, 97, 89, 98],
  [85, 87, 101, 102, 66, 67, 81],
  [86, 76, 75, 65, 104, 96, 94],
  [87, 83, 102, 100, 67, 70, 85],
  [88, 72, 91, 73, 99, 80, 105],
  [89, 97, 91, 103, 69, 84, 71],
  [90, 77, 80, 68, 106, 93, 99],
  [91, 73, 89, 71, 105, 88, 103],
  [92, 83, 78, 74, 108, 100, 95],
  [93, 79, 90, 77, 109, 95, 106],
  [94, 86, 81, 75, 107, 104, 101],
  [95, 92, 79, 78, 109, 108, 93],
  [96, 104, 98, 110, 76, 86, 82],
  [97, 127, 98, 84, 103, 89, 111],
  [98, 110, 97, 111, 82, 96, 84],
  [99, 80, 105, 88, 106, 90, 113],
  [100, 102, 83, 87, 108, 114, 92],
  [101, 102, 107, 112, 81, 85, 94],
  [102, 101, 87, 85, 114, 112, 100],
  [103, 91, 97, 89, 116, 105, 111],
  [104, 107, 110, 115, 86, 94, 96],
  [105, 88, 103, 91, 113, 99, 116],
  [106, 93, 99, 90, 117, 109, 113],
  [107, 127, 101, 94, 115, 104, 112],
  [108, 100, 95, 92, 118, 114, 109],
  [109, 108, 93, 95, 117, 118, 106],
  [110, 98, 104, 96, 119, 111, 115],
  [111, 97, 110, 98, 116, 103, 119],
  [112, 107, 102, 101, 120, 115, 114],
  [113, 99, 116, 105, 117, 106, 121],
  [114, 112, 100, 102, 118, 120, 108],
  [115, 110, 107, 104, 120, 119, 112],
  [116, 103, 119, 111, 113, 105, 121],
  [117, 127, 109, 118, 113, 121, 106],
  [118, 120, 108, 114, 117, 121, 109],
  [119, 111, 115, 110, 121, 116, 120],
  [120, 115, 114, 112, 121, 119, 118],
  [121, 116, 120, 119, 117, 113, 118]
]

/-- Per-base-cell neighbor rotation table from base_cells.rs (baseCellNeighbor60CCWRots). -/
def baseCellNeighbor60CCWRots : List (List Int) := [
  [0, 5, 0, 0, 1, 5, 1],
  [0, 0, 1, 0, 1, 0, 1],
  [0, 0, 0, 0, 0, 5, 0],
  [0, 5, 0, 0, 2, 5, 1],
  [0, -1, 1, 0, 3, 4, 2],
  [0, 0, 1, 0, 1, 0, 1],
  [0, 0, 0, 3, 5, 5, 0],
  [0, 0, 0, 0, 0, 5, 0],
  [0, 5, 0, 0, 0, 5, 1],
  [0, 0, 1, 3, 0, 0, 1],
  [0, 0, 1, 3, 0, 0, 1],
  [0, 3, 3, 3, 0, 0, 0],
  [0, 5, 0, 0, 3, 5, 1],
  [0, 0, 1, 0, 1, 0, 1],
  [0, -1, 3, 0, 5, 2, 0],
  [0, 5, 0, 0, 4, 5, 1],
  [0, 0, 0, 0, 0, 5, 0],
  [0, 3, 3, 3, 3, 0, 3],
  [0, 0, 0, 3, 5, 5, 0],
  [0, 3, 3, 3, 0, 0, 0],
  [0, 3, 3, 3, 0, 3, 0],
  [0, 0, 0, 3, 5, 5, 0],
  [0, 0, 1, 0, 1, 0, 1],
  [0, 3, 3, 3, 0, 3, 0],
  [0, -1, 3, 0, 5, 2, 0],
  [0, 0, 0, 3, 0, 0, 3],
  [0, 0, 0, 0, 0, 5, 0],
  [0, 3, 0, 0, 0, 3, 3],
  [0, 0, 1, 0, 1, 0, 1],
  [0, 0, 1, 3, 0, 0, 1],
  [0, 3, 3, 3, 0, 0, 0],
  [0, 0, 0, 0, 0, 5, 0],
  [0, 3, 3, 3, 3, 0, 3],
  [0, 0, 1, 3, 0, 0, 1],
  [0, 3, 3, 3, 3, 0, 3],
  [0, 0, 3, 0, 3, 0, 3],
  [0, 0, 0, 3, 0, 0, 3],
  [0, 3, 0, 0, 0, 3, 3],
  [0, -1, 3, 0, 5, 2, 0],
  [0, 3, 0, 0, 3, 3, 0],
  [0, 3, 0, 0, 3, 3, 0],
  [0, 0, 0, 3, 5, 5, 0],
  [0, 0, 0, 3, 5, 5, 0],
  [0, 3, 3, 3, 0, 0, 0],
  [0, 0, 1, 3, 0, 0, 1],
  [0, 0, 3, 0, 0, 3, 3],
  [0, 0, 0, 3, 0, 3, 0],
  [0, 3, 3, 3, 0, 3, 0],
  [0, 3, 3, 3, 0, 3, 0],
  [0, -1, 3, 0, 5, 2, 0],
  [0, 0, 0, 3, 0, 0, 3],
  [0, 3, 0, 0, 0, 3, 3],
  [0, 0, 3, 0, 3, 0, 3],
  [0, 3, 3, 3, 0, 0, 0],
  [0, 0, 3, 0, 3, 0, 3],
  [0, 0, 3, 0, 0, 3, 3],
  [0, 3, 3, 3, 0, 0, 3],
  [0, 0, 0, 3, 0, 3, 0],
  [0, -1, 3, 0, 5, 2, 0],
  [0, 3, 3, 3, 3, 3, 0],
  [0, 3, 3, 3, 3, 3, 0],
  [0, 3, 3, 3, 3, 0, 3],
  [0, 3, 3, 3, 3, 0, 3],
  [0, -1, 3, 0, 5, 2, 0],
  [0, 0, 0, 3, 0, 0, 3],
  [0, 3, 3, 3, 0, 3, 0],
  [0, 3, 0, 0, 0, 3, 3],
  [0, 3, 0, 0, 3, 3, 0],
  [0, 3, 3, 3, 0, 0, 0],
  [0, 3, 0, 0, 3, 3, 0],
  [0, 0, 3, 0, 0, 3, 3],
  [0, 0, 0, 3, 0, 3, 0],
  [0, -1, 3, 0, 5, 2, 0],
  [0, 3, 3, 3, 0, 0, 3],
  [0, 3, 3, 3, 0, 0, 3],
  [0, 0, 0, 3, 0, 0, 3],
  [0, 3, 0, 0, 0, 3, 3],
  [0, 0, 0, 3, 0, 5, 0],
  [0, 3, 3, 3, 0, 0, 0],
  [0, 0, 1, 3, 1, 0, 1],
  [0, 0, 1, 3, 1, 0, 1],
  [0, 0, 3, 0, 3, 0, 3],
  [0, 0, 3, 0, 3, 0, 3],
  [0, -1, 3, 0, 5, 2, 0],
  [0, 0, 3, 0, 0, 3, 3],
  [0, 0, 0, 3, 0, 3, 0],
  [0, 3, 0, 0, 3, 3, 0],
  [0, 3, 3, 3, 3, 3, 0],
  [0, 0, 0, 3, 0, 5, 0],
  [0, 3, 3, 3, 3, 3, 0],
  [0, 0, 0, 0, 0, 0, 1],
  [0, 3, 3, 3, 0, 0, 0],
  [0, 0, 0, 3, 0, 5, 0],
  [0, 5, 0, 0, 5, 5, 0],
  [0, 0, 3, 0, 0, 3, 3],
  [0, 0, 0, 0, 0, 0, 1],
  [0, 0, 0, 3, 0, 3, 0],
  [0, -1, 3, 0, 5, 2, 0],
  [0, 3, 3, 3, 0, 0, 3],
  [0, 5, 0, 0, 5, 5, 0],
  [0, 0, 1, 3, 1, 0, 1],
  [0, 3, 3, 3, 0, 0, 3],
  [0, 3, 3, 3, 0, 0, 0],
  [0, 0, 1, 3, 1, 0, 1],
  [0, 3, 3, 3, 3, 3, 0],
  [0, 0, 0, 0, 0, 0, 1],
  [0, 0, 1, 0, 3, 5, 1],
  [0, -1, 3, 0, 5, 2, 0],
  [0, 5, 0, 0, 5, 5, 0],
  [0, 0, 1, 0, 4, 5, 1],
  [0, 3, 3, 3, 0, 0, 0],
  [0, 0, 0, 3, 0, 5, 0],
  [0, 0, 0, 3, 0, 5, 0],
  [0, 0, 1, 0, 2, 5, 1],
  [0, 0, 0, 0, 0, 0, 1],
  [0, 0, 1, 3, 1, 0, 1],
  [0, 5, 0, 0, 5, 5, 0],
  [0, -1, 1, 0, 3, 4, 2],
  [0, 0, 1, 0, 0, 5, 1],
  [0, 0, 0, 0, 0, 0, 1],
  [0, 5, 0, 0, 5, 5, 0],
  [0, 0, 1, 0, 1, 5, 1]
]

/-- isPentagon flags of baseCellData in base_cells.rs, one per base cell. -/
def baseCellIsPentagonFlag : List Nat :=
  [0, 0, 0, 0, 1, 0, 0, 0, 0, 0, 0, 0, 0, 0, 1, 0, 0, 0, 0, 0, 0, 0, 0, 0, 1, 0, 0, 0, 0, 0, 0, 0, 0, 0, 0, 0, 0, 0, 1, 0, 0, 0, 0, 0, 0, 0, 0, 0, 0, 1, 0, 0, 0, 0, 0, 0, 0, 0, 1, 0, 0, 0, 0, 1, 0, 0, 0, 0, 0, 0, 0, 0, 1, 0, 0, 0, 0, 0, 0, 0, 0, 0, 0, 1, 0, 0, 0, 0, 0, 0, 0, 0, 0, 0, 0, 0, 0, 1, 0, 0, 0, 0, 0, 0, 0, 0, 0, 1, 0, 0, 0, 0, 0, 0, 0, 0, 0, 1, 0, 0, 0, 0]

/-- home face (homeFijk.face) of each entry of baseCellData in base_cells.rs. -/
def baseCellHomeFace : List Nat :=
  [1, 2, 1, 2, 0, 1, 1, 2, 0, 2, 1, 1, 3, 3, 11, 4, 0, 6, 0, 2, 7, 2, 0, 6, 10, 6, 3, 11, 4, 3, 0, 4, 5, 0, 7, 11, 7, 10, 12, 6, 7, 4, 3, 3, 4, 6, 11, 8, 5, 14, 5, 12, 10, 4, 12, 7, 11, 10, 13, 10, 11, 9, 8, 6, 8, 9, 14, 5, 16, 8, 5, 12, 7, 12, 10, 9, 13, 16, 15, 15, 16, 14, 13, 5, 8, 14, 9, 14, 17, 12, 16, 17, 15, 16, 9, 15, 13, 8, 13, 17, 19, 14, 19, 17, 13, 17, 16, 9, 15, 15, 18, 18, 19, 17, 19, 18, 18, 19, 19, 18, 19, 18]

/-- cwOffsetPent pairs of baseCellData in base_cells.rs. -/
def baseCellCwOffsetPent : List (Int × Int) := [
  (0, 0),
  (0, 0),
  (0, 0),
  (0, 0),
  (-1, -1),
  (0, 0),
  (0, 0),
  (0, 0),
  (0, 0),
  (0, 0),
  (0, 0),
  (0, 0),
  (0, 0),
  (0, 0),
  (2, 6),
  (0, 0),
  (0, 0),
  (0, 0),
  (0, 0),
  (0, 0),
  (0, 0),
  (0, 0),
  (0, 0),
  (0, 0),
  (1, 5),
  (0, 0),
  (0, 0),
  (0, 0),
  (0, 0),
  (0, 0),
  (0, 0),
  (0, 0),
  (0, 0),
  (0, 0),
  (0, 0),
  (0, 0),
  (0, 0),
  (0, 0),
  (3, 7),
  (0, 0),
  (0, 0),
  (0, 0),
  (0, 0),
  (0, 0),
  (0, 0),
  (0, 0),
  (0, 0),
  (0, 0),
  (0, 0),
  (0, 9),
  (0, 0),
  (0, 0),
  (0, 0),
  (0, 0),
  (0, 0),
  (0, 0),
  (0, 0),
  (0, 0),
  (4, 8),
  (0, 0),
  (0, 0),
  (0, 0),
  (0, 0),
  (11, 15),
  (0, 0),
  (0, 0),
  (0, 0),
  (0, 0),
  (0, 0),
  (0, 0),
  (0, 0),
  (0, 0),
  (12, 16),
  (0, 0),
  (0, 0),
  (0, 0),
  (0, 0),
  (0, 0),
  (0, 0),
  (0, 0),
  (0, 0),
  (0, 0),
  (0, 0),
  (10, 19),
  (0, 0),
  (0, 0),
  (0, 0),
  (0, 0),
  (0, 0),
  (0, 0),
  (0, 0),
  (0, 0),
  (0, 0),
  (0, 0),
  (0, 0),
  (0, 0),
  (0, 0),
  (13, 17),
  (0, 0),
  (0, 0),
  (0, 0),
  (0, 0),
  (0, 0),
  (0, 0),
  (0, 0),
  (0, 0),
  (0, 0),
  (14, 18),
  (0, 0),
  (0, 0),
  (0, 0),
  (0, 0),
  (0, 0),
  (0, 0),
  (0, 0),
  (0, 0),
  (0, 0),
  (-1, -1),
  (0, 0),
  (0, 0),
  (0, 0),
  (0, 0)
]

/-- _isBaseCellPentagon from base_cells.rs. -/
def _isBaseCellPentagon (baseCell : Nat) : Bool :=
  if NUM_BASE_CELLS ≤ baseCell then false
  else baseCellIsPentagonFlag.getD baseCell 0 ≠ 0

/-- _isBaseCellPolarPentagon from base_cells.rs. -/
def _isBaseCellPolarPentagon (baseCell : Nat) : Bool :=
  baseCell = 4 ∨ baseCell = 117

/-- _baseCellIsCwOffset from base_cells.rs. -/
def _baseCellIsCwOffset (baseCell testFace : Nat) : Bool :=
  (baseCellCwOffsetPent.getD baseCell (0, 0)).1 = (testFace : Int) ∨
    (baseCellCwOffsetPent.getD baseCell (0, 0)).2 = (testFace : Int)

/-- The digit scan of _h3LeadingNonZeroDigit (h3_index.rs), generalized over
    the start position `r` and the number `count` of positions left to scan:
    returns the first digit that is not CenterDigit, else CenterDigit. -/
def leadingLoop (h : Nat) : Nat → Nat → Nat
  | _, 0 => 0
  | r, count + 1 =>
    if H3_GET_INDEX_DIGIT h r ≠ 0 then H3_GET_INDEX_DIGIT h r
    else leadingLoop h (r + 1) count

/-- _h3LeadingNonZeroDigit from h3_index.rs. -/
def _h3LeadingNonZeroDigit (h : Nat) : Nat :=
  leadingLoop h 1 (H3_GET_RESOLUTION h)

/-- isPentagon from h3_index.rs. -/
def isPentagon (h : Nat) : Bool :=
  _isBaseCellPentagon (H3_GET_BASE_CELL h) && (_h3LeadingNonZeroDigit h = 0)

/-- First loop of isValidCell (h3_index.rs): scans digit positions
    r, r + 1, ... for `count` positions, carrying the foundFirstNonZeroDigit
    flag; `pent` is the pentagon test of the base cell. -/
def validDigitsLoop (h : Nat) (pent : Bool) : Nat → Nat → Bool → Bool
  | _, 0, _ => true
  | r, count + 1, found =>
    let digit := H3_GET_INDEX_DIGIT h r
    if ¬found ∧ digit ≠ 0 then
      if pent ∧ digit = 1 then false
      else if 7 ≤ digit then false
      else validDigitsLoop h pent (r + 1) count true
    else
      if 7 ≤ digit then false
      else validDigitsLoop h pent (r + 1) count found

/-- Second loop of isValidCell (h3_index.rs): positions r, r + 1, ... for
    `count` positions must all hold the invalid digit 7. -/
def invalidTailLoop (h : Nat) : Nat → Nat → Bool
  | _, 0 => true
  | r, count + 1 =>
    if H3_GET_INDEX_DIGIT h r ≠ 7 then false
    else invalidTailLoop h (r + 1) count

/-- isValidCell from h3_index.rs. -/
def isValidCell (h : Nat) : Bool :=
  if H3_GET_HIGH_BIT h ≠ 0 then false
  else if H3_GET_MODE h ≠ H3_CELL_MODE then false
  else if H3_GET_RESERVED_BITS h ≠ 0 then false
  else
    let baseCell := H3_GET_BASE_CELL h
    if NUM_BASE_CELLS ≤ baseCell then false
    else
      let res := H3_GET_RESOLUTION h
      if MAX_H3_RES < res then false
      else
        if validDigitsLoop h (_isBaseCellPentagon baseCell) 1 res false then
          invalidTailLoop h (res + 1) (MAX_H3_RES - res)
        else false



theorem leadingLoop_nonzero (h : Nat) (count r : Nat)
    (hd : H3_GET_INDEX_DIGIT h r ≠ 0) :
    leadingLoop h r (count + 1) = H3_GET_INDEX_DIGIT h r := by
  simp only [leadingLoop, ne_eq, hd, not_false_eq_true, if_true]

theorem leadingLoop_zero_step (h : Nat) (count r : Nat)
    (hd : H3_GET_INDEX_DIGIT h r = 0) :
    leadingLoop h r (count + 1) = leadingLoop h (r + 1) count := by
  simp only [leadingLoop, hd]
  norm_num

theorem leadingLoop_eq_zero_iff (h : Nat) :
    ∀ count r, leadingLoop h r count = 0 ↔
      ∀ p, r ≤ p → p < r + count → H3_GET_INDEX_DIGIT h p = 0 := by
  intro count
  induction count with
  | zero =>
    intro r
    simp only [leadingLoop]
    constructor
    · intro _ p h1 h2; omega
    · intro _; trivial
  | succ n ih =>
    intro r
    by_cases hd : H3_GET_INDEX_DIGIT h r = 0
    · rw [leadingLoop_zero_step h n r hd, ih (r + 1)]
      constructor
      · intro hall p h1 h2
        rcases Nat.eq_or_lt_of_le h1 with heq | hlt
        · subst heq; exact hd
        · exact hall p hlt (by omega)
      · intro hall p h1 h2
        exact hall p (by omega) (by omega)
    · rw [leadingLoop_nonzero h n r hd]
      constructor
      · intro h0; exact absurd h0 hd
      · intro hall; exact absurd (hall r le_rfl (by omega)) hd

theorem invalidTailLoop_iff (h : Nat) :
    ∀ count r, invalidTailLoop h r count = true ↔
      ∀ p, r ≤ p → p < r + count → H3_GET_INDEX_DIGIT h p = 7 := by
  intro count
  induction count with
  | zero =>
    intro r
    simp only [invalidTailLoop]
    constructor
    · intro _ p h1 h2; omega
    · intro _; trivial
  | succ n ih =>
    intro r
    by_cases hd : H3_GET_INDEX_DIGIT h r = 7
    · have hstep : invalidTailLoop h r (n + 1) = invalidTailLoop h (r + 1) n := by
        simp only [invalidTailLoop, hd, ne_eq, not_true_eq_false, if_false]
      rw [hstep, ih (r + 1)]
      constructor
      · intro hall p h1 h2
        rcases Nat.eq_or_lt_of_le h1 with heq | hlt
        · subst heq; exact hd
        · exact hall p hlt (by omega)
      · intro hall p h1 h2
        exact hall p (by omega) (by omega)
    · have hstep : invalidTailLoop h r (n + 1) = false := by
        simp only [invalidTailLoop, ne_eq, hd, not_false_eq_true, if_true]
      rw [hstep]
      constructor
      · intro hfalse; exact absurd hfalse (by simp)
      · intro hall; exact absurd (hall r le_rfl (by omega)) hd

theorem validDigitsLoop_found (h : Nat) (pent : Bool) :
    ∀ count r, validDigitsLoop h pent r count true = true ↔
      ∀ p, r ≤ p → p < r + count → H3_GET_INDEX_DIGIT h p ≤ 6 := by
  intro count
  induction count with
  | zero =>
    intro r
    simp only [validDigitsLoop]
    constructor
    · intro _ p h1 h2; omega
    · intro _; trivial
  | succ n ih =>
    intro r
    simp only [validDigitsLoop, not_true, false_and, if_false]
    by_cases hd : 7 ≤ H3_GET_INDEX_DIGIT h r
    · simp only [hd, if_true]
      constructor
      · intro hfalse; exact absurd hfalse (by simp)
      · intro hall; exact absurd (hall r le_rfl (by omega)) (by omega)
    · simp only [hd, if_false, ih (r + 1)]
      constructor
      · intro hall p h1 h2
        rcases Nat.eq_or_lt_of_le h1 with heq | hlt
        · subst heq; omega
        · exact hall p hlt (by omega)
      · intro hall p h1 h2
        exact hall p (by omega) (by omega)

theorem validDigitsLoop_unfound (h : Nat) (pent : Bool) :
    ∀ count r, validDigitsLoop h pent r count false = true ↔
      ((∀ p, r ≤ p → p < r + count → H3_GET_INDEX_DIGIT h p ≤ 6) ∧
        (pent = true → leadingLoop h r count ≠ 1)) := by
  intro count
  induction count with
  | zero =>
    intro r
    simp only [validDigitsLoop, leadingLoop]
    constructor
    · intro _
      exact ⟨fun p h1 h2 => by omega, fun _ => by omega⟩
    · intro _; trivial
  | succ n ih =>
    intro r
    by_cases hd : H3_GET_INDEX_DIGIT h r = 0
    · have hstep : validDigitsLoop h pent r (n + 1) false =
          validDigitsLoop h pent (r + 1) n false := by
        simp only [validDigitsLoop, hd]
        norm_num
      rw [hstep, leadingLoop_zero_step h n r hd, ih (r + 1)]
      constructor
      · intro ⟨hall, hpent⟩
        refine ⟨fun p h1 h2 => ?_, hpent⟩
        rcases Nat.eq_or_lt_of_le h1 with heq | hlt
        · subst heq; omega
        · exact hall p hlt (by omega)
      · intro ⟨hall, hpent⟩
        exact ⟨fun p h1 h2 => hall p (by omega) (by omega), hpent⟩
    · have hlead : leadingLoop h r (n + 1) = H3_GET_INDEX_DIGIT h r :=
        leadingLoop_nonzero h n r hd
      by_cases hpd : pent = true ∧ H3_GET_INDEX_DIGIT h r = 1
      · have hstep : validDigitsLoop h pent r (n + 1) false = false := by
          simp only [validDigitsLoop, hd]
          simp [hpd.1, hpd.2]
        rw [hstep]
        constructor
        · intro hfalse; exact absurd hfalse (by simp)
        · intro ⟨_, hpent⟩
          exact absurd (hlead.trans hpd.2) (hpent hpd.1)
      · by_cases h7 : 7 ≤ H3_GET_INDEX_DIGIT h r
        · have hstep : validDigitsLoop h pent r (n + 1) false = false := by
            simp only [validDigitsLoop, hd]
            by_cases hp : pent <;> simp_all
          rw [hstep]
          constructor
          · intro hfalse; exact absurd hfalse (by simp)
          · intro ⟨hall, _⟩; exact absurd (hall r le_rfl (by omega)) (by omega)
        · have hstep : validDigitsLoop h pent r (n + 1) false =
              validDigitsLoop h pent (r + 1) n true := by
            simp only [validDigitsLoop, hd]
            by_cases hp : pent <;> simp_all
          rw [hstep, validDigitsLoop_found h pent n (r + 1)]
          constructor
          · intro hall
            refine ⟨fun p h1 h2 => ?_, fun hp => ?_⟩
            · rcases Nat.eq_or_lt_of_le h1 with heq | hlt
              · subst heq; omega
              · exact hall p hlt (by omega)
            · rw [hlead]
              intro h1
              exact hpd ⟨hp, h1⟩
          · intro ⟨hall, _⟩ p h1 h2
            exact hall p (by omega) (by omega)

/-- C2: `isValidCell h` returns true iff the high bit is 0, the mode field is
    1 (cell), the reserved bits are 0, the resolution field `r` is in [0,15],
    the base cell field is in [0,121], every digit at positions 1..r is in
    {0..6}, every digit at positions r+1..15 is INVALID (7), and, when the
    base cell is pentagonal, the first non-zero digit among positions 1..r is
    not K (value 1). -/
theorem isValidCell_characterization (h : Nat) :
    isValidCell h = true ↔
      (H3_GET_HIGH_BIT h = 0 ∧ H3_GET_MODE h = H3_CELL_MODE ∧
        H3_GET_RESERVED_BITS h = 0 ∧ H3_GET_RESOLUTION h ≤ 15 ∧
        H3_GET_BASE_CELL h ≤ 121 ∧
        (∀ p, 1 ≤ p → p ≤ H3_GET_RESOLUTION h → H3_GET_INDEX_DIGIT h p ≤ 6) ∧
        (∀ p, H3_GET_RESOLUTION h < p → p ≤ 15 → H3_GET_INDEX_DIGIT h p = 7) ∧
        (_isBaseCellPentagon (H3_GET_BASE_CELL h) = true →
          _h3LeadingNonZeroDigit h ≠ 1)) := by
  simp only [isValidCell, NUM_BASE_CELLS, MAX_H3_RES, H3_CELL_MODE]
  split_ifs with h1 h2 h3 h4 h5 h6
  · simp only [false_iff]
    intro hc
    exact h1 hc.1
  · simp only [false_iff]
    intro hc
    exact h2 hc.2.1
  · simp only [false_iff]
    intro hc
    exact h3 hc.2.2.1
  · simp only [false_iff]
    intro hc
    have := hc.2.2.2.2.1
    omega
  · simp only [false_iff]
    intro hc
    have := hc.2.2.2.1
    omega
  · rw [invalidTailLoop_iff]
    obtain ⟨hall, hpent⟩ :=
      (validDigitsLoop_unfound h (_isBaseCellPentagon (H3_GET_BASE_CELL h))
        (H3_GET_RESOLUTION h) 1).mp h6
    constructor
    · intro htail
      refine ⟨by omega, by omega, by omega, by omega, by omega,
        fun p hp1 hp2 => hall p hp1 (by omega),
        fun p hp1 hp2 => htail p (by omega) (by omega),
        fun hpp => hpent hpp⟩
    · intro hc p hp1 hp2
      exact hc.2.2.2.2.2.2.1 p (by omega) (by omega)
  · simp only [false_iff]
    intro hc
    apply h6
    rw [validDigitsLoop_unfound]
    exact ⟨fun p hp1 hp2 => hc.2.2.2.2.2.1 p hp1 (by omega), hc.2.2.2.2.2.2.2⟩

/-- C10: `isPentagon h` is true iff the base cell field of `h` is in [0,121]
    with the pentagon flag set in the base-cell table, and every resolution
    digit of `h` from position 1 through `getResolution h` is the center
    digit 0 (so any descendant of a pentagonal base cell with a non-zero
    digit is not itself a pentagon). -/
theorem isPentagon_characterization (h : Nat) :
    isPentagon h = true ↔
      (H3_GET_BASE_CELL h ≤ 121 ∧
        baseCellIsPentagonFlag.getD (H3_GET_BASE_CELL h) 0 ≠ 0 ∧
        (∀ p, 1 ≤ p → p ≤ getResolution h → H3_GET_INDEX_DIGIT h p = 0)) := by
  simp only [isPentagon, _isBaseCellPentagon, _h3LeadingNonZeroDigit,
    getResolution, NUM_BASE_CELLS, Bool.and_eq_true, decide_eq_true_eq]
  split_ifs with hbc
  · simp only [Bool.false_eq_true, false_and, false_iff]
    intro hc
    omega
  · rw [leadingLoop_eq_zero_iff]
    constructor
    · intro ⟨hflag, hdig⟩
      exact ⟨by omega, of_decide_eq_true hflag,
        fun p hp1 hp2 => hdig p hp1 (by omega)⟩
    · intro ⟨_, hflag, hdig⟩
      exact ⟨decide_eq_true hflag, fun p hp1 hp2 => hdig p hp1 (by omega)⟩

/-- NEW_DIGIT_II digit table from algos.rs. -/
def NEW_DIGIT_II : List (List Nat) := [
  [0, 1, 2, 3, 4, 5, 6],
  [1, 4, 3, 6, 5, 2, 0],
  [2, 3, 1, 4, 6, 0, 5],
  [3, 6, 4, 5, 0, 1, 2],
  [4, 5, 6, 0, 2, 3, 1],
  [5, 2, 0, 1, 3, 6, 4],
  [6, 0, 5, 2, 1, 4, 3]
]

/-- NEW_ADJUSTMENT_II digit table from algos.rs. -/
def NEW_ADJUSTMENT_II : List (List Nat) := [
  [0, 0, 0, 0, 0, 0, 0],
  [0, 1, 0, 1, 0, 5, 0],
  [0, 0, 2, 3, 0, 0, 2],
  [0, 1, 3, 3, 0, 0, 0],
  [0, 0, 0, 0, 4, 4, 6],
  [0, 5, 0, 0, 4, 5, 0],
  [0, 0, 2, 0, 6, 0, 6]
]

/-- NEW_DIGIT_III digit table from algos.rs. -/
def NEW_DIGIT_III : List (List Nat) := [
  [0, 1, 2, 3, 4, 5, 6],
  [1, 2, 3, 4, 5, 6, 0],
  [2, 3, 4, 5, 6, 0, 1],
  [3, 4, 5, 6, 0, 1, 2],
  [4, 5, 6, 0, 1, 2, 3],
  [5, 6, 0, 1, 2, 3, 4],
  [6, 0, 1, 2, 3, 4, 5]
]

/-- NEW_ADJUSTMENT_III digit table from algos.rs. -/
def NEW_ADJUSTMENT_III : List (List Nat) := [
  [0, 0, 0, 0, 0, 0, 0],
  [0, 1, 0, 3, 0, 1, 0],
  [0, 0, 2, 2, 0, 0, 6],
  [0, 3, 2, 3, 0, 0, 0],
  [0, 0, 0, 0, 4, 5, 4],
  [0, 1, 0, 0, 5, 5, 0],
  [0, 0, 6, 0, 4, 0, 6]
]

/-- DIRECTIONS ring-traversal order from algos.rs: [J, JK, K, IK, I, IJ]. -/
def DIRECTIONS : List Nat := [2, 3, 1, 5, 4, 6]

/-- NEXT_RING_DIRECTION from algos.rs: the I axes digit. -/
def NEXT_RING_DIRECTION : Nat := 4

/-- INVALID_BASE_CELL from base_cells.rs. -/
def INVALID_BASE_CELL : Nat := 127

/-- Rust `%` (remainder of truncated division) for a positive right operand,
    as used on `i32` values in algos.rs. -/
def rustRem (a b : Int) : Int :=
  if 0 ≤ a then a % b else -((-a) % b)

/-- The digit-rotation loop shared by _h3Rotate60ccw and _h3Rotate60cw
    (h3_index.rs): rotates `count` digits starting at position `r`. -/
def h3RotateLoop (rot : Nat → Nat) : Nat → Nat → Nat → Nat
  | h, _, 0 => h
  | h, r, count + 1 =>
    h3RotateLoop rot (H3_SET_INDEX_DIGIT h r (rot (H3_GET_INDEX_DIGIT h r)))
      (r + 1) count

/-- _h3Rotate60ccw from h3_index.rs. -/
def _h3Rotate60ccw (h : Nat) : Nat :=
  h3RotateLoop _rotate60ccw h 1 (H3_GET_RESOLUTION h)

/-- _h3Rotate60cw from h3_index.rs. -/
def _h3Rotate60cw (h : Nat) : Nat :=
  h3RotateLoop _rotate60cw h 1 (H3_GET_RESOLUTION h)

/-- The digit loop shared by _h3RotatePent60ccw and _h3RotatePent60cw
    (h3_index.rs): `rot` rotates one digit, `whole` rotates the whole index
    when the leading non-zero digit lands on the deleted K axis. -/
def h3RotatePentLoop (rot : Nat → Nat) (whole : Nat → Nat) :
    Nat → Nat → Nat → Bool → Nat
  | h, _, 0, _ => h
  | h, r, count + 1, found =>
    let h1 := H3_SET_INDEX_DIGIT h r (rot (H3_GET_INDEX_DIGIT h r))
    if ¬found ∧ H3_GET_INDEX_DIGIT h1 r ≠ 0 then
      if _h3LeadingNonZeroDigit h1 = 1 then
        h3RotatePentLoop rot whole (whole h1) (r + 1) count true
      else h3RotatePentLoop rot whole h1 (r + 1) count true
    else h3RotatePentLoop rot whole h1 (r + 1) count found

/-- _h3RotatePent60ccw from h3_index.rs. -/
def _h3RotatePent60ccw (h : Nat) : Nat :=
  h3RotatePentLoop _rotate60ccw _h3Rotate60ccw h 1 (H3_GET_RESOLUTION h) false

/-- _h3RotatePent60cw from h3_index.rs. -/
def _h3RotatePent60cw (h : Nat) : Nat :=
  h3RotatePentLoop _rotate60cw _h3Rotate60cw h 1 (H3_GET_RESOLUTION h) false

/-- The `for _i in 0..*rotations` pre-rotation of the direction argument in
    h3NeighborRotations (algos.rs). -/
def rotateDirTimes : Nat → Nat → Nat
  | dir, 0 => dir
  | dir, n + 1 => rotateDirTimes (_rotate60ccw dir) n

/-- n-fold application of a whole-index rotation, for the
    `for _i in 0..newRotations` loops of h3NeighborRotations (algos.rs). -/
def iterateRot (f : Nat → Nat) : Nat → Nat → Nat
  | h, 0 => h
  | h, n + 1 => iterateRot f (f h) n

/-- The digit-adjustment loop of h3NeighborRotations (algos.rs), walking from
    resolution `counter` (the source variable r+1) down to the base cell.
    Returns the adjusted index, the newRotations value read from the base-cell
    rotation table, and the extra +1 added to *rotations when the deleted k
    vertex at the base-cell level forces the IK retry. -/
def neighborDigitWalk (oldBaseCell : Nat) :
    Nat → Nat → Nat → Except Error (Nat × Int × Nat)
  | current, dir, 0 =>
    let current1 :=
      H3_SET_BASE_CELL current ((baseCellNeighbors.getD oldBaseCell []).getD dir 0)
    let nr := (baseCellNeighbor60CCWRots.getD oldBaseCell []).getD dir 0
    if H3_GET_BASE_CELL current1 = INVALID_BASE_CELL then
      let current2 :=
        H3_SET_BASE_CELL current1 ((baseCellNeighbors.getD oldBaseCell []).getD 5 0)
      let nr2 := (baseCellNeighbor60CCWRots.getD oldBaseCell []).getD 5 0
      .ok (_h3Rotate60ccw current2, nr2, 1)
    else .ok (current1, nr, 0)
  | current, dir, counter + 1 =>
    let oldDigit := H3_GET_INDEX_DIGIT current (counter + 1)
    if oldDigit = 7 then .error .CellInvalid
    else
      if isResolutionClassIII (counter + 1) then
        let current1 := H3_SET_INDEX_DIGIT current (counter + 1)
          ((NEW_DIGIT_II.getD oldDigit []).getD dir 0)
        let nextDir := (NEW_ADJUSTMENT_II.getD oldDigit []).getD dir 0
        if nextDir ≠ 0 then neighborDigitWalk oldBaseCell current1 nextDir counter
        else .ok (current1, 0, 0)
      else
        let current1 := H3_SET_INDEX_DIGIT current (counter + 1)
          ((NEW_DIGIT_III.getD oldDigit []).getD dir 0)
        let nextDir := (NEW_ADJUSTMENT_III.getD oldDigit []).getD dir 0
        if nextDir ≠ 0 then neighborDigitWalk oldBaseCell current1 nextDir counter
        else .ok (current1, 0, 0)

/-- Shared tail of the pentagon branch of h3NeighborRotations (algos.rs):
    apply _h3RotatePent60ccw newRotations times, account for the differing
    orientation of the base cells, and combine the rotation counters. -/
def pentagonFinish (current : Nat) (rot newRotations : Int)
    (oldBaseCell newBaseCell : Nat) (adjusted : Bool) : Nat × Int :=
  let current1 := iterateRot _h3RotatePent60ccw current newRotations.toNat
  let rot1 :=
    if oldBaseCell ≠ newBaseCell then
      if _isBaseCellPolarPentagon newBaseCell then
        if oldBaseCell ≠ 118 ∧ oldBaseCell ≠ 8 ∧
            _h3LeadingNonZeroDigit current1 ≠ 3 then rot + 1
        else rot
      else
        if _h3LeadingNonZeroDigit current1 = 5 ∧ adjusted = false then rot + 1
        else rot
    else rot
  (current1, rustRem (rot1 + newRotations) 6)

/-- The part of h3NeighborRotations (algos.rs) after the digit-adjustment
    loop: pentagon handling, base-cell orientation rotations, and the final
    combination of the rotation counters. `current`, `newRotations` and
    `extraRot` are the outputs of the digit walk. -/
def h3NeighborPost (origin : Nat) (rotations : Int) (current : Nat)
    (newRotations : Int) (extraRot : Nat) : Except Error (Nat × Int) :=
  let oldBaseCell := H3_GET_BASE_CELL origin
  let oldLeadingDigit := _h3LeadingNonZeroDigit origin
  let rot1 : Int := rotations + extraRot
  let newBaseCell := H3_GET_BASE_CELL current
  if _isBaseCellPentagon newBaseCell then
    if _h3LeadingNonZeroDigit current = 1 then
      if oldBaseCell ≠ newBaseCell then
        let current2 :=
          if _baseCellIsCwOffset newBaseCell
              (baseCellHomeFace.getD oldBaseCell 0) then
            _h3Rotate60cw current
          else _h3Rotate60ccw current
        .ok (pentagonFinish current2 rot1 newRotations oldBaseCell
          newBaseCell true)
      else
        if oldLeadingDigit = 0 then .error .Pentagon
        else if oldLeadingDigit = 3 then
          .ok (pentagonFinish (_h3Rotate60ccw current) (rot1 + 1)
            newRotations oldBaseCell newBaseCell false)
        else if oldLeadingDigit = 5 then
          .ok (pentagonFinish (_h3Rotate60cw current) (rot1 + 5)
            newRotations oldBaseCell newBaseCell false)
        else .error .Failed
    else
      .ok (pentagonFinish current rot1 newRotations oldBaseCell
        newBaseCell false)
  else
    let current1 := iterateRot _h3Rotate60ccw current newRotations.toNat
    .ok (current1, rustRem (rot1 + newRotations) 6)

/-- h3NeighborRotations from algos.rs. The rotations in/out parameter is
    threaded explicitly: the result pairs the neighbor index with the new
    value of *rotations. -/
def h3NeighborRotations (origin : Nat) (dir : Nat) (rotations : Int) :
    Except Error (Nat × Int) :=
  if 7 ≤ dir then .error .Failed
  else
    let dir1 := rotateDirTimes dir rotations.toNat
    let oldBaseCell := H3_GET_BASE_CELL origin
    if NUM_BASE_CELLS ≤ oldBaseCell then .error .CellInvalid
    else
      match neighborDigitWalk oldBaseCell origin dir1 (H3_GET_RESOLUTION origin) with
      | .error e => .error e
      | .ok (current, newRotations, extraRot) =>
        h3NeighborPost origin rotations current newRotations extraRot

/-- Canonical arithmetic form of a w-bit field read at offset s. -/
def fieldGet (h s w : Nat) : Nat := h / 2 ^ s % 2 ^ w

/-- Canonical form of the masked-or field write used by all setters. -/
def fieldSet (h s w v : Nat) : Nat :=
  (h &&& (U64_MAX ^^^ ((2 ^ w - 1) <<< s))) ||| (v <<< s)

theorem fieldGet_testBit (h s w i : Nat) :
    (fieldGet h s w).testBit i = (decide (i < w) && h.testBit (s + i)) := by
  rw [fieldGet, Nat.testBit_mod_two_pow, ← Nat.shiftRight_eq_div_pow,
    Nat.testBit_shiftRight]

theorem and_shift_getter (h s w : Nat) :
    (h &&& ((2 ^ w - 1) <<< s)) >>> s = fieldGet h s w := by
  apply Nat.eq_of_testBit_eq
  intro i
  rw [fieldGet_testBit, Nat.testBit_shiftRight, Nat.testBit_land,
    Nat.testBit_shiftLeft, Nat.testBit_two_pow_sub_one]
  by_cases hw : i < w
  · have h1 : s + i ≥ s := by omega
    have h2 : s + i - s = i := by omega
    simp [hw, h1, h2]
  · have : ¬(s + i - s < w) := by omega
    simp [hw, this]

theorem fieldSet_testBit (h s w v : Nat) (hv : v < 2 ^ w) (hsw : s + w ≤ 64)
    (j : Nat) :
    (fieldSet h s w v).testBit j =
      if s ≤ j ∧ j < s + w then v.testBit (j - s)
      else (decide (j < 64) && h.testBit j) := by
  have hU : U64_MAX = 2 ^ 64 - 1 := rfl
  rw [fieldSet, hU, Nat.testBit_lor, Nat.testBit_land, Nat.testBit_xor,
    Nat.testBit_shiftLeft, Nat.testBit_shiftLeft, Nat.testBit_two_pow_sub_one,
    Nat.testBit_two_pow_sub_one]
  by_cases hin : s ≤ j ∧ j < s + w
  · have h64 : j < 64 := by omega
    have hgs : j ≥ s := hin.1
    have hlw : j - s < w := by omega
    simp [hin, h64, hgs, hlw]
  · simp only [hin, if_false]
    by_cases hjs : j ≥ s
    · have hbig : ¬(j - s < w) := by omega
      have : v.testBit (j - s) = false := by
        apply Nat.testBit_eq_false_of_lt
        calc v < 2 ^ w := hv
          _ ≤ 2 ^ (j - s) := Nat.pow_le_pow_right (by omega) (by omega)
      simp [hjs, hbig, this]
      by_cases h64 : j < 64 <;> simp [h64]
    · simp [hjs]
      by_cases h64 : j < 64 <;> simp [h64]

theorem fieldGet_fieldSet_same (h s w v : Nat) (hv : v < 2 ^ w)
    (hsw : s + w ≤ 64) : fieldGet (fieldSet h s w v) s w = v := by
  apply Nat.eq_of_testBit_eq
  intro i
  rw [fieldGet_testBit, fieldSet_testBit h s w v hv hsw]
  by_cases hiw : i < w
  · have hin : s ≤ s + i ∧ s + i < s + w := by omega
    have heq : s + i - s = i := by omega
    simp [hiw, hin, heq]
  · have hfb : v.testBit i = false := by
      apply Nat.testBit_eq_false_of_lt
      calc v < 2 ^ w := hv
        _ ≤ 2 ^ i := Nat.pow_le_pow_right (by omega) (by omega)
    simp [hiw, hfb]

theorem fieldGet_fieldSet_disjoint (h s w v s' w' : Nat) (hv : v < 2 ^ w)
    (hsw : s + w ≤ 64) (hsw' : s' + w' ≤ 64)
    (hdisj : s + w ≤ s' ∨ s' + w' ≤ s) :
    fieldGet (fieldSet h s w v) s' w' = fieldGet h s' w' := by
  apply Nat.eq_of_testBit_eq
  intro i
  rw [fieldGet_testBit, fieldGet_testBit, fieldSet_testBit h s w v hv hsw]
  by_cases hiw : i < w'
  · have hnotin : ¬(s ≤ s' + i ∧ s' + i < s + w) := by omega
    have h64 : s' + i < 64 := by omega
    simp [hiw, hnotin, h64]
  · simp [hiw]

theorem H3_GET_INDEX_DIGIT_eq (h p : Nat) :
    H3_GET_INDEX_DIGIT h p = fieldGet h ((MAX_H3_RES - p) * 3) 3 := by
  apply Nat.eq_of_testBit_eq
  intro i
  rw [H3_GET_INDEX_DIGIT, fieldGet_testBit, Nat.testBit_land,
    Nat.testBit_shiftRight, show (7 : Nat) = 2 ^ 3 - 1 from rfl,
    Nat.testBit_two_pow_sub_one]
  by_cases h3 : i < 3 <;> simp [h3]

theorem H3_GET_BASE_CELL_eq (h : Nat) : H3_GET_BASE_CELL h = fieldGet h 45 7 := by
  rw [H3_GET_BASE_CELL, H3_BC_MASK, show (127 : Nat) = 2 ^ 7 - 1 from rfl,
    and_shift_getter]

theorem H3_GET_RESOLUTION_eq (h : Nat) :
    H3_GET_RESOLUTION h = fieldGet h 52 4 := by
  rw [H3_GET_RESOLUTION, H3_RES_MASK, show (15 : Nat) = 2 ^ 4 - 1 from rfl,
    and_shift_getter]

theorem H3_GET_MODE_eq (h : Nat) : H3_GET_MODE h = fieldGet h 59 4 := by
  rw [H3_GET_MODE, H3_MODE_MASK, show (15 : Nat) = 2 ^ 4 - 1 from rfl,
    and_shift_getter]

theorem H3_GET_RESERVED_BITS_eq (h : Nat) :
    H3_GET_RESERVED_BITS h = fieldGet h 56 3 := by
  rw [H3_GET_RESERVED_BITS, H3_RESERVED_MASK,
    show (7 : Nat) = 2 ^ 3 - 1 from rfl, and_shift_getter]

theorem H3_SET_INDEX_DIGIT_eq (h r d : Nat) :
    H3_SET_INDEX_DIGIT h r d = fieldSet h ((MAX_H3_RES - r) * 3) 3 d := rfl

theorem H3_SET_BASE_CELL_eq (h b : Nat) :
    H3_SET_BASE_CELL h b = fieldSet h 45 7 b := rfl

theorem H3_SET_MODE_eq (h v : Nat) : H3_SET_MODE h v = fieldSet h 59 4 v := rfl

theorem H3_SET_RESERVED_BITS_eq (h v : Nat) :
    H3_SET_RESERVED_BITS h v = fieldSet h 56 3 v := rfl

theorem digit_of_setDigit (h r d p : Nat) (hr1 : 1 ≤ r) (hr : r ≤ 15)
    (hp1 : 1 ≤ p) (hp : p ≤ 15) (hd : d < 8) :
    H3_GET_INDEX_DIGIT (H3_SET_INDEX_DIGIT h r d) p =
      if p = r then d else H3_GET_INDEX_DIGIT h p := by
  rw [H3_SET_INDEX_DIGIT_eq, H3_GET_INDEX_DIGIT_eq]
  by_cases hpr : p = r
  · subst hpr
    rw [if_pos rfl]
    exact fieldGet_fieldSet_same h _ 3 d hd (by simp [MAX_H3_RES]; omega)
  · rw [if_neg hpr, H3_GET_INDEX_DIGIT_eq]
    apply fieldGet_fieldSet_disjoint h _ 3 d _ 3 hd
      (by simp [MAX_H3_RES]; omega) (by simp [MAX_H3_RES]; omega)
    simp [MAX_H3_RES]
    omega

theorem bc_of_setDigit (h r d : Nat) (hr1 : 1 ≤ r) (hr : r ≤ 15) (hd : d < 8) :
    H3_GET_BASE_CELL (H3_SET_INDEX_DIGIT h r d) = H3_GET_BASE_CELL h := by
  rw [H3_SET_INDEX_DIGIT_eq, H3_GET_BASE_CELL_eq, H3_GET_BASE_CELL_eq]
  apply fieldGet_fieldSet_disjoint h _ 3 d 45 7 hd
    (by simp [MAX_H3_RES]; omega) (by omega)
  simp [MAX_H3_RES]
  omega

theorem res_of_setDigit (h r d : Nat) (hr1 : 1 ≤ r) (hr : r ≤ 15) (hd : d < 8) :
    H3_GET_RESOLUTION (H3_SET_INDEX_DIGIT h r d) = H3_GET_RESOLUTION h := by
  rw [H3_SET_INDEX_DIGIT_eq, H3_GET_RESOLUTION_eq, H3_GET_RESOLUTION_eq]
  apply fieldGet_fieldSet_disjoint h _ 3 d 52 4 hd
    (by simp [MAX_H3_RES]; omega) (by omega)
  simp [MAX_H3_RES]
  omega

theorem bc_of_setBC (h b : Nat) (hb : b < 128) :
    H3_GET_BASE_CELL (H3_SET_BASE_CELL h b) = b := by
  rw [H3_SET_BASE_CELL_eq, H3_GET_BASE_CELL_eq]
  exact fieldGet_fieldSet_same h 45 7 b hb (by omega)

theorem res_of_setBC (h b : Nat) (hb : b < 128) :
    H3_GET_RESOLUTION (H3_SET_BASE_CELL h b) = H3_GET_RESOLUTION h := by
  rw [H3_SET_BASE_CELL_eq, H3_GET_RESOLUTION_eq, H3_GET_RESOLUTION_eq]
  exact fieldGet_fieldSet_disjoint h 45 7 b 52 4 hb (by omega) (by omega)
    (by omega)

theorem digit_of_setBC (h b p : Nat) (hb : b < 128) (hp1 : 1 ≤ p)
    (hp : p ≤ 15) :
    H3_GET_INDEX_DIGIT (H3_SET_BASE_CELL h b) p = H3_GET_INDEX_DIGIT h p := by
  rw [H3_SET_BASE_CELL_eq, H3_GET_INDEX_DIGIT_eq, H3_GET_INDEX_DIGIT_eq]
  apply fieldGet_fieldSet_disjoint h 45 7 b _ 3 hb (by omega)
    (by simp [MAX_H3_RES]; omega)
  simp [MAX_H3_RES]
  omega

theorem res_le_15 (h : Nat) : H3_GET_RESOLUTION h ≤ 15 := by
  rw [H3_GET_RESOLUTION_eq, fieldGet]
  have : h / 2 ^ 52 % 2 ^ 4 < 2 ^ 4 := Nat.mod_lt _ (by norm_num)
  omega

theorem rotate60ccw_le_six (d : Nat) (hd : d ≤ 6) : _rotate60ccw d ≤ 6 := by
  interval_cases d <;> decide

theorem rotateDirTimes_le_six (d : Nat) (hd : d ≤ 6) :
    ∀ n, rotateDirTimes d n ≤ 6 := by
  intro n
  induction n generalizing d with
  | zero => exact hd
  | succ m ih =>
    rw [rotateDirTimes]
    exact ih (_rotate60ccw d) (rotate60ccw_le_six d hd)

theorem table_getD_lt (t : List (List Nat)) (b : Nat) (hb : 0 < b)
    (h8 : ∀ row ∈ t, ∀ x ∈ row, x < b) (o d : Nat) :
    (t.getD o []).getD d 0 < b := by
  rw [List.getD_eq_getElem?_getD]
  rcases ho : t[o]? with _ | row
  · simp [ho, List.getD_eq_getElem?_getD]
    omega
  · have hrow := List.getElem?_mem ho
    rw [List.getD_eq_getElem?_getD, ho, Option.getD_some]
    rcases hd2 : row[d]? with _ | x
    · simp [hd2]
      omega
    · have := h8 row hrow x (List.getElem?_mem hd2)
      simpa [hd2] using this

theorem newDigitTables_lt_8 :
    (∀ row ∈ NEW_DIGIT_II, ∀ x ∈ row, x < 8) ∧
      (∀ row ∈ NEW_DIGIT_III, ∀ x ∈ row, x < 8) := by decide

theorem leadingLoop_skip_zeros (h : Nat) :
    ∀ count r m, r ≤ m → m < r + count →
      (∀ p, r ≤ p → p < m → H3_GET_INDEX_DIGIT h p = 0) →
      H3_GET_INDEX_DIGIT h m ≠ 0 →
      leadingLoop h r count = H3_GET_INDEX_DIGIT h m := by
  intro count
  induction count with
  | zero => intro r m h1 h2 _ _; omega
  | succ n ih =>
    intro r m h1 h2 hz hm
    by_cases hrm : r = m
    · subst hrm
      exact leadingLoop_nonzero h n r hm
    · have hz0 : H3_GET_INDEX_DIGIT h r = 0 := hz r le_rfl (by omega)
      rw [leadingLoop_zero_step h n r hz0]
      exact ih (r + 1) m (by omega) (by omega)
        (fun p hp1 hp2 => hz p (by omega) hp2) hm

theorem neighborDigitWalk_error_cases (oldBC : Nat) :
    ∀ counter, counter ≤ 15 → ∀ current dir e,
      neighborDigitWalk oldBC current dir counter = .error e →
      e = .CellInvalid ∧
        ∃ p, 1 ≤ p ∧ p ≤ counter ∧ H3_GET_INDEX_DIGIT current p = 7 := by
  intro counter
  induction counter with
  | zero =>
    intro _ current dir e hw
    simp only [neighborDigitWalk] at hw
    split at hw <;> simp_all
  | succ c ih =>
    intro hc15 current dir e hw
    simp only [neighborDigitWalk] at hw
    by_cases h7 : H3_GET_INDEX_DIGIT current (c + 1) = 7
    · rw [if_pos h7] at hw
      refine ⟨by injection hw with h'; exact h'.symm, c + 1, by omega, le_rfl, h7⟩
    · rw [if_neg h7] at hw
      have hkey : ∀ nd newDigit, newDigit < 8 →
          (if nd ≠ 0 then
              neighborDigitWalk oldBC
                (H3_SET_INDEX_DIGIT current (c + 1) newDigit) nd c
            else .ok (H3_SET_INDEX_DIGIT current (c + 1) newDigit, 0, 0)) =
              .error e →
          e = .CellInvalid ∧
            ∃ p, 1 ≤ p ∧ p ≤ c + 1 ∧ H3_GET_INDEX_DIGIT current p = 7 := by
        intro nd newDigit hnd8 hbr
        by_cases hnd : nd ≠ 0
        · rw [if_pos hnd] at hbr
          obtain ⟨he, p, hp1, hp2, hpd⟩ := ih (by omega) _ nd e hbr
          refine ⟨he, p, hp1, by omega, ?_⟩
          rw [digit_of_setDigit current (c + 1) newDigit p (by omega)
            (by omega) (by omega) (by omega) hnd8] at hpd
          rw [if_neg (by omega)] at hpd
          exact hpd
        · rw [if_neg hnd] at hbr
          exact absurd hbr (by simp)
      split at hw
      · exact hkey _ _ (table_getD_lt _ 8 (by omega) newDigitTables_lt_8.1 _ _) hw
      · exact hkey _ _ (table_getD_lt _ 8 (by omega) newDigitTables_lt_8.2 _ _) hw

theorem neighborDigitWalk_center (oldBC origin dir1 : Nat) (c : Nat)
    (hd : dir1 ≤ 6) (hz : H3_GET_INDEX_DIGIT origin (c + 1) = 0) :
    neighborDigitWalk oldBC origin dir1 (c + 1) =
      .ok (H3_SET_INDEX_DIGIT origin (c + 1) dir1, 0, 0) := by
  have hnII : (NEW_DIGIT_II.getD 0 []).getD dir1 0 = dir1 := by
    interval_cases dir1 <;> rfl
  have hnIII : (NEW_DIGIT_III.getD 0 []).getD dir1 0 = dir1 := by
    interval_cases dir1 <;> rfl
  have haII : (NEW_ADJUSTMENT_II.getD 0 []).getD dir1 0 = 0 := by
    interval_cases dir1 <;> rfl
  have haIII : (NEW_ADJUSTMENT_III.getD 0 []).getD dir1 0 = 0 := by
    interval_cases dir1 <;> rfl
  simp only [neighborDigitWalk, hz, hnII, hnIII, haII, haIII]
  norm_num

set_option maxRecDepth 4000 in
theorem baseCellNeighbors_lt_128 :
    ∀ row ∈ baseCellNeighbors, ∀ x ∈ row, x < 128 := by decide

theorem isPentagon_eq_true_iff (h : Nat) :
    isPentagon h = true ↔
      (_isBaseCellPentagon (H3_GET_BASE_CELL h) = true ∧
        _h3LeadingNonZeroDigit h = 0) := by
  simp [isPentagon, Bool.and_eq_true, decide_eq_true_eq]

theorem h3NeighborRotations_walk_error (origin dir : Nat) (rotations : Int)
    (e : Error) (h7 : ¬7 ≤ dir)
    (hbc : ¬NUM_BASE_CELLS ≤ H3_GET_BASE_CELL origin)
    (hw : neighborDigitWalk (H3_GET_BASE_CELL origin) origin
      (rotateDirTimes dir rotations.toNat) (H3_GET_RESOLUTION origin) =
        .error e) :
    h3NeighborRotations origin dir rotations = .error e := by
  simp only [h3NeighborRotations]
  rw [if_neg h7, if_neg hbc, hw]

theorem h3NeighborRotations_walk_ok (origin dir : Nat) (rotations : Int)
    (current : Nat) (newRot : Int) (extra : Nat) (h7 : ¬7 ≤ dir)
    (hbc : ¬NUM_BASE_CELLS ≤ H3_GET_BASE_CELL origin)
    (hw : neighborDigitWalk (H3_GET_BASE_CELL origin) origin
      (rotateDirTimes dir rotations.toNat) (H3_GET_RESOLUTION origin) =
        .ok (current, newRot, extra)) :
    h3NeighborRotations origin dir rotations =
      h3NeighborPost origin rotations current newRot extra := by
  simp only [h3NeighborRotations]
  rw [if_neg h7, if_neg hbc, hw]

theorem h3NeighborPost_ne_cellInvalid (o : Nat) (rot : Int) (cur : Nat)
    (nr : Int) (er : Nat) :
    h3NeighborPost o rot cur nr er ≠ .error .CellInvalid := by
  simp only [h3NeighborPost]
  split_ifs <;> simp

theorem h3NeighborPost_pentagon_iff (o : Nat) (rot : Int) (cur : Nat)
    (nr : Int) (er : Nat) :
    h3NeighborPost o rot cur nr er = .error .Pentagon ↔
      (_isBaseCellPentagon (H3_GET_BASE_CELL cur) = true ∧
        _h3LeadingNonZeroDigit cur = 1 ∧
        H3_GET_BASE_CELL o = H3_GET_BASE_CELL cur ∧
        _h3LeadingNonZeroDigit o = 0) := by
  simp only [h3NeighborPost]
  split_ifs <;> simp_all

theorem neighborDigitWalk_base_leading (oldBC origin d1 : Nat) (cur : Nat)
    (nr : Int) (er : Nat) (hres0 : H3_GET_RESOLUTION origin = 0)
    (hw : neighborDigitWalk oldBC origin d1 0 = .ok (cur, nr, er)) :
    _h3LeadingNonZeroDigit cur = 0 := by
  have hnb : ∀ d : Nat, (baseCellNeighbors.getD oldBC []).getD d 0 < 128 :=
    fun d => table_getD_lt _ 128 (by omega) baseCellNeighbors_lt_128 oldBC d
  simp only [neighborDigitWalk] at hw
  split_ifs at hw with hinv
  · simp only [Except.ok.injEq, Prod.mk.injEq] at hw
    obtain ⟨hcur, _, _⟩ := hw
    have hres1 : H3_GET_RESOLUTION
        (H3_SET_BASE_CELL (H3_SET_BASE_CELL origin
          ((baseCellNeighbors.getD oldBC []).getD d1 0))
          ((baseCellNeighbors.getD oldBC []).getD 5 0)) = 0 := by
      rw [res_of_setBC _ _ (hnb 5), res_of_setBC _ _ (hnb d1), hres0]
    have hrot : _h3Rotate60ccw
        (H3_SET_BASE_CELL (H3_SET_BASE_CELL origin
          ((baseCellNeighbors.getD oldBC []).getD d1 0))
          ((baseCellNeighbors.getD oldBC []).getD 5 0)) =
        H3_SET_BASE_CELL (H3_SET_BASE_CELL origin
          ((baseCellNeighbors.getD oldBC []).getD d1 0))
          ((baseCellNeighbors.getD oldBC []).getD 5 0) := by
      rw [_h3Rotate60ccw, hres1]
      rfl
    rw [← hcur, hrot, _h3LeadingNonZeroDigit, hres1]
    rfl
  · simp only [Except.ok.injEq, Prod.mk.injEq] at hw
    obtain ⟨hcur, _, _⟩ := hw
    rw [← hcur, _h3LeadingNonZeroDigit, res_of_setBC _ _ (hnb d1), hres0]
    rfl

theorem neighborDigitWalk_center_res (origin dir1 : Nat) (hd1 : dir1 ≤ 6)
    (c : Nat) (hres : H3_GET_RESOLUTION origin = c + 1)
    (hzero : ∀ p, 1 ≤ p → p ≤ H3_GET_RESOLUTION origin →
      H3_GET_INDEX_DIGIT origin p = 0) :
    neighborDigitWalk (H3_GET_BASE_CELL origin) origin dir1
        (H3_GET_RESOLUTION origin) =
      .ok (H3_SET_INDEX_DIGIT origin (c + 1) dir1, 0, 0) := by
  rw [hres]
  exact neighborDigitWalk_center _ origin dir1 c hd1
    (hzero (c + 1) (by omega) (by omega))

theorem digit_lt_8 (h p : Nat) : H3_GET_INDEX_DIGIT h p < 8 := by
  rw [H3_GET_INDEX_DIGIT_eq, fieldGet]
  exact Nat.mod_lt _ (by norm_num)

theorem rotate60ccw_lt_8 (d : Nat) (hd : d < 8) : _rotate60ccw d < 8 := by
  interval_cases d <;> decide

theorem bc_of_h3RotateLoop (rot : Nat → Nat)
    (hrot : ∀ d, d < 8 → rot d < 8) :
    ∀ count r h, 1 ≤ r → r + count ≤ 16 →
      H3_GET_BASE_CELL (h3RotateLoop rot h r count) = H3_GET_BASE_CELL h := by
  intro count
  induction count with
  | zero => intro r h _ _; rfl
  | succ n ih =>
    intro r h hr1 hrc
    rw [h3RotateLoop, ih (r + 1) _ (by omega) (by omega),
      bc_of_setDigit h r _ hr1 (by omega) (hrot _ (digit_lt_8 h r))]

theorem bc_of_rotate60ccw (h : Nat) :
    H3_GET_BASE_CELL (_h3Rotate60ccw h) = H3_GET_BASE_CELL h := by
  rw [_h3Rotate60ccw]
  exact bc_of_h3RotateLoop _rotate60ccw rotate60ccw_lt_8 _ 1 h (by omega)
    (by have := res_le_15 h; omega)

theorem digitTables_le_six :
    ∀ old, old < 7 → ∀ d, d < 7 →
      ((NEW_ADJUSTMENT_II.getD old []).getD d 0 ≤ 6 ∧
       (NEW_ADJUSTMENT_III.getD old []).getD d 0 ≤ 6 ∧
       (NEW_DIGIT_II.getD old []).getD d 0 ≤ 6 ∧
       (NEW_DIGIT_III.getD old []).getD d 0 ≤ 6) := by decide

theorem digitTables_nd_zero :
    ∀ old, old < 7 → ∀ d, d < 7 →
      (((NEW_DIGIT_II.getD old []).getD d 0 = 0 →
         (NEW_ADJUSTMENT_II.getD old []).getD d 0 = 0) ∧
       ((NEW_DIGIT_III.getD old []).getD d 0 = 0 →
         (NEW_ADJUSTMENT_III.getD old []).getD d 0 = 0)) := by decide

set_option synthInstance.maxSize 1024 in
theorem digitTables_nd_one :
    ∀ old, old < 7 → ∀ d, d < 7 →
      (((NEW_DIGIT_II.getD old []).getD d 0 = 1 →
         (NEW_ADJUSTMENT_II.getD old []).getD d 0 ≠ 0 →
         ((NEW_ADJUSTMENT_II.getD old []).getD d 0 = 2 ∨
          (NEW_ADJUSTMENT_II.getD old []).getD d 0 = 4 ∨
          (NEW_ADJUSTMENT_II.getD old []).getD d 0 = 6)) ∧
       ((NEW_DIGIT_III.getD old []).getD d 0 = 1 →
         (NEW_ADJUSTMENT_III.getD old []).getD d 0 ≠ 0 →
         ((NEW_ADJUSTMENT_III.getD old []).getD d 0 = 2 ∨
          (NEW_ADJUSTMENT_III.getD old []).getD d 0 = 4 ∨
          (NEW_ADJUSTMENT_III.getD old []).getD d 0 = 6))) := by decide

theorem digitTables_row_center :
    ∀ d, d < 7 →
      ((NEW_DIGIT_II.getD 0 []).getD d 0 = d ∧
       (NEW_ADJUSTMENT_II.getD 0 []).getD d 0 = 0 ∧
       (NEW_DIGIT_III.getD 0 []).getD d 0 = d ∧
       (NEW_ADJUSTMENT_III.getD 0 []).getD d 0 = 0) := by decide

set_option synthInstance.maxSize 1024 in
theorem digitTables_even_rows :
    ∀ old, old < 7 → (old = 2 ∨ old = 4 ∨ old = 6) → ∀ d, d < 7 →
      ((NEW_ADJUSTMENT_II.getD old []).getD d 0 ≠ 1 ∧
       (NEW_ADJUSTMENT_III.getD old []).getD d 0 ≠ 1 ∧
       ((NEW_ADJUSTMENT_II.getD old []).getD d 0 = 0 →
         (NEW_DIGIT_II.getD old []).getD d 0 ≠ 1) ∧
       ((NEW_ADJUSTMENT_III.getD old []).getD d 0 = 0 →
         (NEW_DIGIT_III.getD old []).getD d 0 ≠ 1) ∧
       ((d = 2 ∨ d = 4 ∨ d = 6) →
         (NEW_DIGIT_II.getD old []).getD d 0 ≠ 0) ∧
       ((d = 2 ∨ d = 4 ∨ d = 6) →
         (NEW_DIGIT_III.getD old []).getD d 0 ≠ 0)) := by decide

set_option maxRecDepth 8000 in
theorem baseCellNeighbors_ne_self :
    ∀ bc, bc < 122 → ∀ d, d < 7 → 1 ≤ d →
      (baseCellNeighbors.getD bc []).getD d 0 ≠ bc := by decide

theorem digitTables_col_zero :
    ∀ old, old < 7 →
      ((NEW_DIGIT_II.getD old []).getD 0 0 = old ∧
       (NEW_ADJUSTMENT_II.getD old []).getD 0 0 = 0 ∧
       (NEW_DIGIT_III.getD old []).getD 0 0 = old ∧
       (NEW_ADJUSTMENT_III.getD old []).getD 0 0 = 0) := by decide

theorem exists_least_nonzero_digit (h n : Nat)
    (hex : ∃ p, 1 ≤ p ∧ p ≤ n ∧ H3_GET_INDEX_DIGIT h p ≠ 0) :
    ∃ q, 1 ≤ q ∧ q ≤ n ∧ H3_GET_INDEX_DIGIT h q ≠ 0 ∧
      ∀ p, 1 ≤ p → p < q → H3_GET_INDEX_DIGIT h p = 0 := by
  have hspec := Nat.find_spec hex
  refine ⟨Nat.find hex, hspec.1, hspec.2.1, hspec.2.2, ?_⟩
  intro p hp1 hp2
  by_contra hnz
  exact Nat.find_min hex hp2 ⟨hp1, by omega, hnz⟩

theorem leading_eq_digit (h m : Nat) (hm1 : 1 ≤ m)
    (hm : m ≤ H3_GET_RESOLUTION h)
    (hz : ∀ p, 1 ≤ p → p < m → H3_GET_INDEX_DIGIT h p = 0)
    (hnz : H3_GET_INDEX_DIGIT h m ≠ 0) :
    _h3LeadingNonZeroDigit h = H3_GET_INDEX_DIGIT h m := by
  rw [_h3LeadingNonZeroDigit]
  exact leadingLoop_skip_zeros h _ 1 m hm1 (by omega)
    (fun p hp1 hp2 => hz p hp1 hp2) hnz

theorem leading_zero_of_digits (h : Nat)
    (hz : ∀ p, 1 ≤ p → p ≤ H3_GET_RESOLUTION h →
      H3_GET_INDEX_DIGIT h p = 0) :
    _h3LeadingNonZeroDigit h = 0 := by
  rw [_h3LeadingNonZeroDigit, leadingLoop_eq_zero_iff]
  intro p hp1 hp2
  exact hz p hp1 (by omega)

theorem leadingLoop_val (h : Nat) :
    ∀ count r, leadingLoop h r count = 0 ∨
      ∃ p, r ≤ p ∧ p < r + count ∧
        leadingLoop h r count = H3_GET_INDEX_DIGIT h p := by
  intro count
  induction count with
  | zero => intro r; left; rfl
  | succ n ih =>
    intro r
    by_cases hd : H3_GET_INDEX_DIGIT h r = 0
    · rw [leadingLoop_zero_step h n r hd]
      rcases ih (r + 1) with h0 | ⟨p, hp1, hp2, hp⟩
      · left; exact h0
      · right; exact ⟨p, by omega, by omega, hp⟩
    · rw [leadingLoop_nonzero h n r hd]
      right; exact ⟨r, le_rfl, by omega, rfl⟩

theorem leading_le_six (h : Nat)
    (hdig : ∀ p, 1 ≤ p → p ≤ H3_GET_RESOLUTION h →
      H3_GET_INDEX_DIGIT h p ≤ 6) :
    _h3LeadingNonZeroDigit h ≤ 6 := by
  rw [_h3LeadingNonZeroDigit]
  rcases leadingLoop_val h (H3_GET_RESOLUTION h) 1 with h0 | ⟨p, hp1, hp2, hp⟩
  · omega
  · rw [hp]; exact hdig p hp1 (by omega)

theorem leadingLoop_congr (g h : Nat) :
    ∀ count r, (∀ p, r ≤ p → p < r + count →
      H3_GET_INDEX_DIGIT g p = H3_GET_INDEX_DIGIT h p) →
      leadingLoop g r count = leadingLoop h r count := by
  intro count
  induction count with
  | zero => intro r _; rfl
  | succ n ih =>
    intro r heq
    have hr := heq r le_rfl (by omega)
    by_cases hd : H3_GET_INDEX_DIGIT h r = 0
    · rw [leadingLoop_zero_step h n r hd,
        leadingLoop_zero_step g n r (by omega)]
      exact ih (r + 1) (fun p hp1 hp2 => heq p (by omega) (by omega))
    · rw [leadingLoop_nonzero h n r hd,
        leadingLoop_nonzero g n r (by omega)]
      exact hr

theorem h3NeighborPost_failed_iff (o : Nat) (rot : Int) (cur : Nat)
    (nr : Int) (er : Nat) :
    h3NeighborPost o rot cur nr er = .error .Failed ↔
      (_isBaseCellPentagon (H3_GET_BASE_CELL cur) = true ∧
        _h3LeadingNonZeroDigit cur = 1 ∧
        H3_GET_BASE_CELL o = H3_GET_BASE_CELL cur ∧
        _h3LeadingNonZeroDigit o ≠ 0 ∧ _h3LeadingNonZeroDigit o ≠ 3 ∧
        _h3LeadingNonZeroDigit o ≠ 5) := by
  simp only [h3NeighborPost]
  split_ifs <;> simp_all

theorem h3NeighborPost_error_cases (o : Nat) (rot : Int) (cur : Nat)
    (nr : Int) (er : Nat) (e : Error) :
    h3NeighborPost o rot cur nr er = .error e →
      e = .Pentagon ∨ e = .Failed := by
  simp only [h3NeighborPost]
  split_ifs <;> intro h <;> simp_all

theorem neighborDigitWalk_leading (oldBC : Nat) (hbc122 : oldBC < 122) :
    ∀ counter current d, 1 ≤ d → d ≤ 6 →
    counter ≤ H3_GET_RESOLUTION current →
    (∀ p, 1 ≤ p → p ≤ counter → H3_GET_INDEX_DIGIT current p ≤ 6) →
    (counter = H3_GET_RESOLUTION current ∨
      (counter + 1 ≤ H3_GET_RESOLUTION current ∧
        H3_GET_INDEX_DIGIT current (counter + 1) ≠ 0 ∧
        (H3_GET_INDEX_DIGIT current (counter + 1) = 1 →
          d = 2 ∨ d = 4 ∨ d = 6))) →
    ((∀ p, 1 ≤ p → p ≤ counter → H3_GET_INDEX_DIGIT current p = 0) →
      d ≠ 1) →
    (∀ q, 1 ≤ q → q ≤ counter →
      (∀ p, 1 ≤ p → p < q → H3_GET_INDEX_DIGIT current p = 0) →
      H3_GET_INDEX_DIGIT current q ≠ 0 →
      (H3_GET_INDEX_DIGIT current q = 2 ∨ H3_GET_INDEX_DIGIT current q = 4 ∨
        H3_GET_INDEX_DIGIT current q = 6)) →
    ∀ cur' nr er,
      neighborDigitWalk oldBC current d counter = .ok (cur', nr, er) →
      H3_GET_BASE_CELL cur' = oldBC →
      _h3LeadingNonZeroDigit cur' ≠ 1 := by
  intro counter
  induction counter with
  | zero =>
    intro current d hd1 hd6 hcres hdig hup hzd hL cur' nr er hw hbc'
    exfalso
    have hnbd : (baseCellNeighbors.getD oldBC []).getD d 0 < 128 :=
      table_getD_lt _ 128 (by omega) baseCellNeighbors_lt_128 _ _
    have hnb5 : (baseCellNeighbors.getD oldBC []).getD 5 0 < 128 :=
      table_getD_lt _ 128 (by omega) baseCellNeighbors_lt_128 _ _
    simp only [neighborDigitWalk] at hw
    rw [bc_of_setBC current _ hnbd] at hw
    by_cases hinv : (baseCellNeighbors.getD oldBC []).getD d 0 =
        INVALID_BASE_CELL
    · rw [if_pos hinv] at hw
      simp only [Except.ok.injEq, Prod.mk.injEq] at hw
      obtain ⟨hcur, -, -⟩ := hw
      rw [← hcur, bc_of_rotate60ccw, bc_of_setBC _ _ hnb5] at hbc'
      exact baseCellNeighbors_ne_self oldBC hbc122 5 (by omega) (by omega) hbc'
    · rw [if_neg hinv] at hw
      simp only [Except.ok.injEq, Prod.mk.injEq] at hw
      obtain ⟨hcur, -, -⟩ := hw
      rw [← hcur, bc_of_setBC _ _ hnbd] at hbc'
      exact baseCellNeighbors_ne_self oldBC hbc122 d (by omega) hd1 hbc'
  | succ c ih =>
    intro current d hd1 hd6 hcres hdig hup hzd hL cur' nr er hw hbc'
    have hres15 : H3_GET_RESOLUTION current ≤ 15 := res_le_15 current
    have hpos15 : c + 1 ≤ 15 := by omega
    have hold6 : H3_GET_INDEX_DIGIT current (c + 1) ≤ 6 :=
      hdig (c + 1) (by omega) le_rfl
    simp only [neighborDigitWalk] at hw
    rw [if_neg (by omega : ¬ H3_GET_INDEX_DIGIT current (c + 1) = 7)] at hw
    have hmain : ∀ nd na : Nat, nd ≤ 6 → na ≤ 6 →
        (nd = 0 → na = 0) →
        (nd = 1 → na ≠ 0 → (na = 2 ∨ na = 4 ∨ na = 6)) →
        (H3_GET_INDEX_DIGIT current (c + 1) = 0 → nd = d ∧ na = 0) →
        ((H3_GET_INDEX_DIGIT current (c + 1) = 2 ∨
          H3_GET_INDEX_DIGIT current (c + 1) = 4 ∨
          H3_GET_INDEX_DIGIT current (c + 1) = 6) →
          (na ≠ 1 ∧ (na = 0 → nd ≠ 1) ∧
            ((d = 2 ∨ d = 4 ∨ d = 6) → nd ≠ 0))) →
        (if na ≠ 0 then
            neighborDigitWalk oldBC
              (H3_SET_INDEX_DIGIT current (c + 1) nd) na c
          else .ok (H3_SET_INDEX_DIGIT current (c + 1) nd, 0, 0)) =
            .ok (cur', nr, er) →
        _h3LeadingNonZeroDigit cur' ≠ 1 := by
      intro nd na hnd6 hna6 hf1 hf3 hf0 hfev hbr
      have hsd : ∀ p, 1 ≤ p → p ≤ 15 →
          H3_GET_INDEX_DIGIT (H3_SET_INDEX_DIGIT current (c + 1) nd) p =
            if p = c + 1 then nd else H3_GET_INDEX_DIGIT current p :=
        fun p hp1 hp2 =>
          digit_of_setDigit current (c + 1) nd p (by omega) hpos15 hp1 hp2
            (by omega)
      have hsres : H3_GET_RESOLUTION (H3_SET_INDEX_DIGIT current (c + 1) nd)
          = H3_GET_RESOLUTION current :=
        res_of_setDigit current (c + 1) nd (by omega) hpos15 (by omega)
      by_cases hna0 : na = 0
      · rw [if_neg (by omega)] at hbr
        simp only [Except.ok.injEq, Prod.mk.injEq] at hbr
        obtain ⟨hcur, -, -⟩ := hbr
        subst hcur
        by_cases hpre : ∀ p, 1 ≤ p → p ≤ c → H3_GET_INDEX_DIGIT current p = 0
        · by_cases holdz : H3_GET_INDEX_DIGIT current (c + 1) = 0
          · obtain ⟨hndd, -⟩ := hf0 holdz
            have hdne1 : d ≠ 1 := by
              refine hzd (fun p hp1 hp2 => ?_)
              rcases Nat.lt_or_ge p (c + 1) with hlt | hge
              · exact hpre p hp1 (by omega)
              · have hpc : p = c + 1 := by omega
                rw [hpc]; exact holdz
            rw [leading_eq_digit _ (c + 1) (by omega)
              (by rw [hsres]; exact hcres) ?_ ?_]
            · rw [hsd (c + 1) (by omega) hpos15, if_pos rfl]
              omega
            · intro p hp1 hp2
              rw [hsd p hp1 (by omega), if_neg (by omega)]
              exact hpre p hp1 (by omega)
            · rw [hsd (c + 1) (by omega) hpos15, if_pos rfl]
              omega
          · have hold246 := hL (c + 1) (by omega) le_rfl
              (fun p hp1 hp2 => hpre p hp1 (by omega)) holdz
            obtain ⟨-, hf2', hf4'⟩ := hfev hold246
            have hndne1 : nd ≠ 1 := hf2' hna0
            by_cases hndz : nd = 0
            · rcases hup with hre | ⟨hlt, hnz, hk⟩
              · rw [leading_zero_of_digits _ ?_]
                · omega
                · intro p hp1 hp2
                  rw [hsres] at hp2
                  rw [hsd p hp1 (by omega)]
                  by_cases hpc : p = c + 1
                  · rw [if_pos hpc]; exact hndz
                  · rw [if_neg hpc]
                    exact hpre p hp1 (by omega)
              · have hval1 : H3_GET_INDEX_DIGIT current (c + 2) ≠ 1 := by
                  intro h1
                  exact hf4' (hk h1) hndz
                rw [leading_eq_digit _ (c + 2) (by omega)
                  (by rw [hsres]; omega) ?_ ?_]
                · rw [hsd (c + 2) (by omega) (by omega), if_neg (by omega)]
                  exact hval1
                · intro p hp1 hp2
                  rw [hsd p hp1 (by omega)]
                  by_cases hpc : p = c + 1
                  · rw [if_pos hpc]; exact hndz
                  · rw [if_neg hpc]
                    exact hpre p hp1 (by omega)
                · rw [hsd (c + 2) (by omega) (by omega), if_neg (by omega)]
                  exact hnz
            · rw [leading_eq_digit _ (c + 1) (by omega)
                (by rw [hsres]; exact hcres) ?_ ?_]
              · rw [hsd (c + 1) (by omega) hpos15, if_pos rfl]
                exact hndne1
              · intro p hp1 hp2
                rw [hsd p hp1 (by omega), if_neg (by omega)]
                exact hpre p hp1 (by omega)
              · rw [hsd (c + 1) (by omega) hpos15, if_pos rfl]
                exact hndz
        · push_neg at hpre
          obtain ⟨p0, hp01, hp0c, hp0nz⟩ := hpre
          obtain ⟨q, hq1, hqc, hqnz, hqmin⟩ :=
            exists_least_nonzero_digit current c ⟨p0, hp01, hp0c, hp0nz⟩
          have hq246 := hL q hq1 (by omega) hqmin hqnz
          rw [leading_eq_digit _ q hq1 (by rw [hsres]; omega) ?_ ?_]
          · rw [hsd q hq1 (by omega), if_neg (by omega)]
            omega
          · intro p hp1 hp2
            rw [hsd p hp1 (by omega), if_neg (by omega)]
            exact hqmin p hp1 hp2
          · rw [hsd q hq1 (by omega), if_neg (by omega)]
            exact hqnz
      · rw [if_pos hna0] at hbr
        refine ih (H3_SET_INDEX_DIGIT current (c + 1) nd) na (by omega) hna6
          (by rw [hsres]; omega) ?_ ?_ ?_ ?_ cur' nr er hbr hbc'
        · intro p hp1 hp2
          rw [hsd p hp1 (by omega), if_neg (by omega)]
          exact hdig p hp1 (by omega)
        · right
          refine ⟨by rw [hsres]; exact hcres, ?_, ?_⟩
          · rw [hsd (c + 1) (by omega) hpos15, if_pos rfl]
            intro hnd0
            exact hna0 (hf1 hnd0)
          · rw [hsd (c + 1) (by omega) hpos15, if_pos rfl]
            intro hnd1
            exact hf3 hnd1 hna0
        · intro hall
          have holdnz : H3_GET_INDEX_DIGIT current (c + 1) ≠ 0 := by
            intro h0
            exact hna0 (hf0 h0).2
          have hold246 := hL (c + 1) (by omega) le_rfl ?_ holdnz
          · exact (hfev hold246).1
          · intro p hp1 hp2
            have := hall p hp1 (by omega)
            rw [hsd p hp1 (by omega), if_neg (by omega)] at this
            exact this
        · intro q hq1 hqc hqz hqnz
          have hqz' : ∀ p, 1 ≤ p → p < q → H3_GET_INDEX_DIGIT current p = 0 := by
            intro p hp1 hp2
            have := hqz p hp1 hp2
            rw [hsd p hp1 (by omega), if_neg (by omega)] at this
            exact this
          have hqnz' : H3_GET_INDEX_DIGIT current q ≠ 0 := by
            rw [hsd q hq1 (by omega), if_neg (by omega)] at hqnz
            exact hqnz
          have := hL q hq1 (by omega) hqz' hqnz'
          rw [hsd q hq1 (by omega), if_neg (by omega)]
          exact this
    by_cases hcl : isResolutionClassIII (c + 1)
    · rw [if_pos hcl] at hw
      have hfacts1 := digitTables_le_six (H3_GET_INDEX_DIGIT current (c + 1)) (by omega) d (by omega)
      have hfacts2 := digitTables_nd_zero (H3_GET_INDEX_DIGIT current (c + 1)) (by omega) d (by omega)
      have hfacts3 := digitTables_nd_one (H3_GET_INDEX_DIGIT current (c + 1)) (by omega) d (by omega)
      exact hmain _ _ hfacts1.2.2.1 hfacts1.1 hfacts2.1 hfacts3.1
        (fun h0 => by
          obtain ⟨ha, hb2, -, -⟩ := digitTables_row_center d (by omega)
          rw [h0]
          exact ⟨ha, hb2⟩)
        (fun h246 => by
          obtain ⟨ha, -, hb2, -, hc2, -⟩ :=
            digitTables_even_rows (H3_GET_INDEX_DIGIT current (c + 1)) (by omega) h246 d (by omega)
          exact ⟨ha, hb2, hc2⟩) hw
    · rw [if_neg hcl] at hw
      have hfacts1 := digitTables_le_six (H3_GET_INDEX_DIGIT current (c + 1)) (by omega) d (by omega)
      have hfacts2 := digitTables_nd_zero (H3_GET_INDEX_DIGIT current (c + 1)) (by omega) d (by omega)
      have hfacts3 := digitTables_nd_one (H3_GET_INDEX_DIGIT current (c + 1)) (by omega) d (by omega)
      exact hmain _ _ hfacts1.2.2.2 hfacts1.2.1 hfacts2.2 hfacts3.2
        (fun h0 => by
          obtain ⟨-, -, hcq, hdq⟩ := digitTables_row_center d (by omega)
          rw [h0]
          exact ⟨hcq, hdq⟩)
        (fun h246 => by
          obtain ⟨-, ha, -, hb2, -, hc2⟩ :=
            digitTables_even_rows (H3_GET_INDEX_DIGIT current (c + 1)) (by omega) h246 d (by omega)
          exact ⟨ha, hb2, hc2⟩) hw

theorem neighborDigitWalk_dir_zero (oldBC origin : Nat) (c : Nat)
    (hold6 : H3_GET_INDEX_DIGIT origin (c + 1) ≤ 6) :
    neighborDigitWalk oldBC origin 0 (c + 1) =
      .ok (H3_SET_INDEX_DIGIT origin (c + 1)
        (H3_GET_INDEX_DIGIT origin (c + 1)), 0, 0) := by
  obtain ⟨hndII, hnaII, hndIII, hnaIII⟩ :=
    digitTables_col_zero (H3_GET_INDEX_DIGIT origin (c + 1)) (by omega)
  simp only [neighborDigitWalk, hndII, hnaII, hndIII, hnaIII]
  rw [if_neg (by omega : ¬ H3_GET_INDEX_DIGIT origin (c + 1) = 7)]
  norm_num

theorem leading_of_set_same (h : Nat) (m : Nat) (hm1 : 1 ≤ m)
    (hm15 : m ≤ 15) :
    _h3LeadingNonZeroDigit
        (H3_SET_INDEX_DIGIT h m (H3_GET_INDEX_DIGIT h m)) =
      _h3LeadingNonZeroDigit h := by
  have hd8 : H3_GET_INDEX_DIGIT h m < 8 := digit_lt_8 h m
  have hres := res_le_15 h
  rw [_h3LeadingNonZeroDigit, _h3LeadingNonZeroDigit,
    res_of_setDigit h m _ hm1 hm15 hd8]
  apply leadingLoop_congr
  intro p hp1 hp2
  rw [digit_of_setDigit h m _ p hm1 hm15 (by omega) (by omega) hd8]
  by_cases hpm : p = m
  · rw [if_pos hpm, hpm]
  · rw [if_neg hpm]

theorem h3NeighborRotations_pentagon_characterization (origin dir : Nat)
    (rotations : Int) :
    h3NeighborRotations origin dir rotations = .error .Pentagon ↔
      (dir < 7 ∧ H3_GET_BASE_CELL origin < NUM_BASE_CELLS ∧
        isPentagon origin = true ∧ 1 ≤ H3_GET_RESOLUTION origin ∧
        rotateDirTimes dir rotations.toNat = 1) := by
  have hA : 7 ≤ dir →
      h3NeighborRotations origin dir rotations = .error .Failed := by
    intro h7
    simp only [h3NeighborRotations, if_pos h7]
  have hB : dir < 7 → NUM_BASE_CELLS ≤ H3_GET_BASE_CELL origin →
      h3NeighborRotations origin dir rotations = .error .CellInvalid := by
    intro h7 hbc
    simp only [h3NeighborRotations]
    rw [if_neg (by omega), if_pos hbc]
  by_cases h7 : 7 ≤ dir
  · rw [hA h7]
    constructor
    · intro hcontra
      exact absurd hcontra (by simp)
    · rintro ⟨hd, _⟩
      omega
  · by_cases hbc : NUM_BASE_CELLS ≤ H3_GET_BASE_CELL origin
    · rw [hB (by omega) hbc]
      constructor
      · intro hcontra
        exact absurd hcontra (by simp)
      · rintro ⟨_, hlt, _⟩
        omega
    · have hd1 : rotateDirTimes dir rotations.toNat ≤ 6 :=
        rotateDirTimes_le_six dir (by omega) _
      rcases hw : neighborDigitWalk (H3_GET_BASE_CELL origin) origin
          (rotateDirTimes dir rotations.toNat)
          (H3_GET_RESOLUTION origin) with e | ⟨cur, nr, er⟩
      · have he := (neighborDigitWalk_error_cases _ _
          (res_le_15 origin) _ _ _ hw).1
        subst he
        rw [h3NeighborRotations_walk_error origin dir rotations _ h7 hbc hw]
        constructor
        · intro hcontra
          exact absurd hcontra (by simp)
        · rintro ⟨_, _, hpent, hres1, hd1eq⟩
          obtain ⟨hpentbc, hlead0⟩ := (isPentagon_eq_true_iff origin).mp hpent
          have hzero : ∀ p, 1 ≤ p → p ≤ H3_GET_RESOLUTION origin →
              H3_GET_INDEX_DIGIT origin p = 0 := by
            intro p hp1 hp2
            exact (leadingLoop_eq_zero_iff origin
              (H3_GET_RESOLUTION origin) 1).mp hlead0 p hp1 (by omega)
          have hcenter := neighborDigitWalk_center_res origin _ hd1
            (H3_GET_RESOLUTION origin - 1) (by omega) hzero
          rw [hcenter] at hw
          exact absurd hw (by simp)
      · rw [h3NeighborRotations_walk_ok origin dir rotations cur nr er h7
          hbc hw, h3NeighborPost_pentagon_iff]
        by_cases hres0 : H3_GET_RESOLUTION origin = 0
        · have hlc : _h3LeadingNonZeroDigit cur = 0 := by
            rw [hres0] at hw
            exact neighborDigitWalk_base_leading _ origin _ cur nr er
              hres0 hw
          constructor
          · rintro ⟨_, hl1, _⟩
            rw [hlc] at hl1
            omega
          · rintro ⟨_, _, _, hge, _⟩
            omega
        · by_cases hlead0 : _h3LeadingNonZeroDigit origin = 0
          · have hzero : ∀ p, 1 ≤ p → p ≤ H3_GET_RESOLUTION origin →
                H3_GET_INDEX_DIGIT origin p = 0 := by
              intro p hp1 hp2
              exact (leadingLoop_eq_zero_iff origin
                (H3_GET_RESOLUTION origin) 1).mp hlead0 p hp1 (by omega)
            have hcenter := neighborDigitWalk_center_res origin _ hd1
              (H3_GET_RESOLUTION origin - 1) (by omega) hzero
            rw [hcenter] at hw
            simp only [Except.ok.injEq, Prod.mk.injEq] at hw
            obtain ⟨hcur, -, -⟩ := hw
            have hresd : H3_GET_RESOLUTION origin - 1 + 1 =
                H3_GET_RESOLUTION origin := by omega
            have hbceq : H3_GET_BASE_CELL cur = H3_GET_BASE_CELL origin := by
              rw [← hcur]
              exact bc_of_setDigit origin _ _ (by omega)
                (by have := res_le_15 origin; omega) (by omega)
            have hrescur : H3_GET_RESOLUTION cur = H3_GET_RESOLUTION origin := by
              rw [← hcur, res_of_setDigit origin _ _ (by omega)
                (by have := res_le_15 origin; omega) (by omega)]
            have hdigcur : ∀ p, 1 ≤ p → p ≤ 15 →
                H3_GET_INDEX_DIGIT cur p =
                  if p = H3_GET_RESOLUTION origin - 1 + 1 then
                    rotateDirTimes dir rotations.toNat
                  else H3_GET_INDEX_DIGIT origin p := by
              intro p hp1 hp2
              rw [← hcur]
              exact digit_of_setDigit origin _ _ p (by omega)
                (by have := res_le_15 origin; omega) hp1 hp2 (by omega)
            have hleadcur : _h3LeadingNonZeroDigit cur =
                rotateDirTimes dir rotations.toNat := by
              by_cases hz : rotateDirTimes dir rotations.toNat = 0
              · rw [hz, _h3LeadingNonZeroDigit, hrescur]
                rw [leadingLoop_eq_zero_iff]
                intro p hp1 hp2
                rw [hdigcur p hp1 (by have := res_le_15 origin; omega)]
                by_cases hpr : p = H3_GET_RESOLUTION origin - 1 + 1
                · rw [if_pos hpr]
                  exact hz
                · rw [if_neg hpr]
                  exact hzero p hp1 (by omega)
              · rw [_h3LeadingNonZeroDigit, hrescur]
                rw [leadingLoop_skip_zeros cur _ 1
                  (H3_GET_RESOLUTION origin) (by omega) (by omega)
                  ?_ ?_]
                · rw [hdigcur _ (by omega)
                    (by have := res_le_15 origin; omega), if_pos (by omega)]
                · intro p hp1 hp2
                  rw [hdigcur p hp1 (by have := res_le_15 origin; omega),
                    if_neg (by omega)]
                  exact hzero p hp1 (by omega)
                · rw [hdigcur _ (by omega)
                    (by have := res_le_15 origin; omega), if_pos (by omega)]
                  exact hz
            rw [hbceq, hleadcur, isPentagon_eq_true_iff]
            constructor
            · rintro ⟨hpentbc, hd1eq, -, -⟩
              exact ⟨by omega, by
                have := (_isBaseCellPentagon (H3_GET_BASE_CELL origin))
                by_cases hlt : H3_GET_BASE_CELL origin < NUM_BASE_CELLS
                · exact hlt
                · rw [_isBaseCellPentagon, if_pos (by omega)] at hpentbc
                  exact absurd hpentbc (by simp),
                ⟨hpentbc, hlead0⟩, by omega, hd1eq⟩
            · rintro ⟨-, -, hpent, -, hd1eq⟩
              obtain ⟨hpentbc, -⟩ := hpent
              exact ⟨hpentbc, hd1eq, rfl, hlead0⟩
          · constructor
            · rintro ⟨-, -, -, hl0⟩
              exact absurd hl0 hlead0
            · rintro ⟨-, -, hpent, -, -⟩
              obtain ⟨-, hl0⟩ := (isPentagon_eq_true_iff origin).mp hpent
              exact absurd hl0 hlead0

theorem h3NeighborRotations_ok_of_valid (origin dir : Nat) (rotations : Int)
    (hv : isValidCell origin = true) (h7 : dir < 7)
    (hnp : ¬(isPentagon origin = true ∧ 1 ≤ H3_GET_RESOLUTION origin ∧
      rotateDirTimes dir rotations.toNat = 1)) :
    ∃ v, h3NeighborRotations origin dir rotations = .ok v := by
  obtain ⟨-, -, -, hres15v, hbc121, hdig6, -, hpentlead⟩ :=
    (isValidCell_characterization origin).mp hv
  have hbcn : ¬ NUM_BASE_CELLS ≤ H3_GET_BASE_CELL origin := by
    simp only [NUM_BASE_CELLS]
    omega
  have h7' : ¬ 7 ≤ dir := by omega
  have hd1le : rotateDirTimes dir rotations.toNat ≤ 6 :=
    rotateDirTimes_le_six dir (by omega) _
  rcases hw : neighborDigitWalk (H3_GET_BASE_CELL origin) origin
      (rotateDirTimes dir rotations.toNat) (H3_GET_RESOLUTION origin)
    with e | ⟨cur, nr, er⟩
  · exfalso
    obtain ⟨-, p, hp1, hp2, hp7⟩ :=
      neighborDigitWalk_error_cases _ _ (res_le_15 origin) _ _ _ hw
    have := hdig6 p hp1 hp2
    omega
  · have hpost := h3NeighborRotations_walk_ok origin dir rotations cur nr er
      h7' hbcn hw
    rcases hres : h3NeighborPost origin rotations cur nr er with e | v
    · exfalso
      rcases h3NeighborPost_error_cases origin rotations cur nr er e hres
        with hP | hF
      · subst hP
        refine hnp ?_
        have hiff := (h3NeighborRotations_pentagon_characterization origin dir
          rotations).mp (by rw [hpost, hres])
        exact ⟨hiff.2.2.1, hiff.2.2.2.1, hiff.2.2.2.2⟩
      · subst hF
        obtain ⟨hpcur, hlead1, hbceq, hl0, hl3, hl5⟩ :=
          (h3NeighborPost_failed_iff origin rotations cur nr er).mp hres
        have hpento : _isBaseCellPentagon (H3_GET_BASE_CELL origin) = true := by
          rw [hbceq]
          exact hpcur
        by_cases hres0 : H3_GET_RESOLUTION origin = 0
        · rw [hres0] at hw
          have hlc := neighborDigitWalk_base_leading _ origin _ cur nr er
            hres0 hw
          omega
        · by_cases hd10 : rotateDirTimes dir rotations.toNat = 0
          · obtain ⟨c, hc⟩ : ∃ c, H3_GET_RESOLUTION origin = c + 1 :=
              ⟨H3_GET_RESOLUTION origin - 1, by omega⟩
            rw [hd10, hc, neighborDigitWalk_dir_zero _ origin c
              (hdig6 (c + 1) (by omega) (by omega))] at hw
            simp only [Except.ok.injEq, Prod.mk.injEq] at hw
            obtain ⟨hcur, -, -⟩ := hw
            rw [← hcur, leading_of_set_same origin (c + 1) (by omega)
              (by omega)] at hlead1
            exact hpentlead hpento hlead1
          · have hle6 := leading_le_six origin hdig6
            have hoL : _h3LeadingNonZeroDigit origin = 1 ∨
                _h3LeadingNonZeroDigit origin = 2 ∨
                _h3LeadingNonZeroDigit origin = 4 ∨
                _h3LeadingNonZeroDigit origin = 6 := by omega
            rcases hoL with h1 | h246
            · exact hpentlead hpento h1
            · refine (neighborDigitWalk_leading (H3_GET_BASE_CELL origin)
                (by omega) (H3_GET_RESOLUTION origin) origin
                (rotateDirTimes dir rotations.toNat) (by omega) hd1le le_rfl
                hdig6 (Or.inl rfl)
                (fun hall => absurd (leading_zero_of_digits origin hall) hl0)
                ?_ cur nr er hw hbceq.symm) hlead1
              intro q hq1 hqr hqz hqnz
              rw [← leading_eq_digit origin q hq1 hqr hqz hqnz]
              exact h246
    · exact ⟨v, by rw [hpost, hres]⟩

/-- C3 (amended): the error classification of h3NeighborRotations (algos.rs).
    A direction outside 0..6 always yields Failed, and on a valid cell Failed
    occurs exactly for directions outside 0..6 (on malformed cells the
    pentagon branch can also return Failed for an in-range direction, see the
    counterexample); an in-range direction with the base cell field outside
    [0,121] yields CellInvalid, and CellInvalid is only ever returned for a
    malformed cell (base cell out of range, or an INVALID digit at or below
    the resolution); the Pentagon error is returned exactly when the origin is
    a pentagon of positive resolution whose requested direction, after the ccw
    pre-rotation by the rotations argument, is the deleted K axis; and on
    every valid cell, for every in-range direction that does not hit the
    Pentagon case, the call returns Ok with a neighbor cell. -/
theorem h3NeighborRotations_error_cases (origin dir : Nat)
    (rotations : Int) :
    (7 ≤ dir → h3NeighborRotations origin dir rotations = .error .Failed) ∧
    (dir < 7 → NUM_BASE_CELLS ≤ H3_GET_BASE_CELL origin →
      h3NeighborRotations origin dir rotations = .error .CellInvalid) ∧
    (h3NeighborRotations origin dir rotations = .error .CellInvalid →
      NUM_BASE_CELLS ≤ H3_GET_BASE_CELL origin ∨
        ∃ p, 1 ≤ p ∧ p ≤ H3_GET_RESOLUTION origin ∧
          H3_GET_INDEX_DIGIT origin p = 7) ∧
    (h3NeighborRotations origin dir rotations = .error .Pentagon ↔
      (dir < 7 ∧ H3_GET_BASE_CELL origin < NUM_BASE_CELLS ∧
        isPentagon origin = true ∧ 1 ≤ H3_GET_RESOLUTION origin ∧
        rotateDirTimes dir rotations.toNat = 1)) ∧
    (isValidCell origin = true → dir < 7 →
      ¬(isPentagon origin = true ∧ 1 ≤ H3_GET_RESOLUTION origin ∧
        rotateDirTimes dir rotations.toNat = 1) →
      ∃ v, h3NeighborRotations origin dir rotations = .ok v) ∧
    (isValidCell origin = true →
      (h3NeighborRotations origin dir rotations = .error .Failed ↔
        7 ≤ dir)) := by
  have hA : 7 ≤ dir →
      h3NeighborRotations origin dir rotations = .error .Failed := by
    intro h7
    simp only [h3NeighborRotations, if_pos h7]
  have hB : dir < 7 → NUM_BASE_CELLS ≤ H3_GET_BASE_CELL origin →
      h3NeighborRotations origin dir rotations = .error .CellInvalid := by
    intro h7 hbc
    simp only [h3NeighborRotations]
    rw [if_neg (by omega), if_pos hbc]
  refine ⟨hA, hB, ?_,
    h3NeighborRotations_pentagon_characterization origin dir rotations,
    fun hv h7 hnp =>
      h3NeighborRotations_ok_of_valid origin dir rotations hv h7 hnp, ?_⟩
  · -- CellInvalid only on malformed input
    intro hcell
    by_cases h7 : 7 ≤ dir
    · rw [hA h7] at hcell
      exact absurd hcell (by simp)
    · by_cases hbc : NUM_BASE_CELLS ≤ H3_GET_BASE_CELL origin
      · exact Or.inl hbc
      · rcases hw : neighborDigitWalk (H3_GET_BASE_CELL origin) origin
            (rotateDirTimes dir rotations.toNat)
            (H3_GET_RESOLUTION origin) with e | ⟨cur, nr, er⟩
        · obtain ⟨_, p, hp1, hp2, hp7⟩ :=
            neighborDigitWalk_error_cases _ _ (res_le_15 origin) _ _ _ hw
          exact Or.inr ⟨p, hp1, hp2, hp7⟩
        · rw [h3NeighborRotations_walk_ok origin dir rotations cur nr er h7
            hbc hw] at hcell
          exact absurd hcell (h3NeighborPost_ne_cellInvalid _ _ _ _ _)
  · intro hv
    constructor
    · intro hfailed
      by_contra h7n
      push_neg at h7n
      by_cases hnp : isPentagon origin = true ∧
          1 ≤ H3_GET_RESOLUTION origin ∧
          rotateDirTimes dir rotations.toNat = 1
      · obtain ⟨-, -, -, -, hbc121, -, -, -⟩ :=
          (isValidCell_characterization origin).mp hv
        have hpen := (h3NeighborRotations_pentagon_characterization origin dir
          rotations).mpr ⟨h7n, by simp only [NUM_BASE_CELLS]; omega,
            hnp.1, hnp.2.1, hnp.2.2⟩
        rw [hfailed] at hpen
        exact absurd hpen (by simp)
      · obtain ⟨v, hok⟩ :=
          h3NeighborRotations_ok_of_valid origin dir rotations hv h7n hnp
        rw [hfailed] at hok
        exact absurd hok (by simp)
    · exact hA

set_option maxRecDepth 4000 in
/-- C3 counterexamples to the original claim. First, the index
    0x8201c7fffffffff is malformed in the sense of the claim (its base cell 0
    is in range, its resolution is 2, and its digit at position 1, at or
    below the resolution, is INVALID = 7), yet h3NeighborRotations returns Ok
    for direction J, because the digit-adjustment walk stops at position 2
    and never reads the malformed digit; so CellInvalid is not returned for
    every malformed cell. Second, the malformed index 581113885512171519
    (pentagon base cell 4 with leading digit K) makes the pentagon branch
    return Failed for the in-range direction 0, so Failed is not returned
    only for directions outside 0..6. -/
theorem h3NeighborRotations_claim_counterexample :
    (H3_GET_BASE_CELL 0x8201c7fffffffff < NUM_BASE_CELLS ∧
     1 ≤ H3_GET_RESOLUTION 0x8201c7fffffffff ∧
     H3_GET_INDEX_DIGIT 0x8201c7fffffffff 1 = 7 ∧
     h3NeighborRotations 0x8201c7fffffffff 2 0 =
       .ok (585500387151183871, 0)) ∧
    ((0 : Nat) < 7 ∧
     h3NeighborRotations 581113885512171519 0 0 = .error .Failed) :=
  ⟨⟨by decide, by decide, by decide, by rfl⟩, ⟨by decide, by rfl⟩⟩

set_option maxRecDepth 4000 in
/-- Witness for the amended C3 classification at concrete inputs: an invalid
    direction fails, an out-of-range base cell is CellInvalid, the K step
    from a res-1 pentagon is the Pentagon error, a valid cell with an
    in-range direction succeeds, and on a valid cell Failed appears exactly
    for an out-of-range direction. -/
theorem h3NeighborRotations_error_cases_witness :
    h3NeighborRotations 0x8001fffffffffff 7 0 = .error .Failed ∧
    h3NeighborRotations 580753245698260992 2 0 = .error .CellInvalid ∧
    h3NeighborRotations 581109487465660415 1 0 = .error .Pentagon ∧
    (∃ v, h3NeighborRotations 0x8029fffffffffff 2 0 = .ok v) ∧
    h3NeighborRotations 0x8029fffffffffff 7 0 = .error .Failed :=
  ⟨(h3NeighborRotations_error_cases 0x8001fffffffffff 7 0).1 (by decide),
   (h3NeighborRotations_error_cases 580753245698260992 2 0).2.1 (by decide)
     (by decide),
   (h3NeighborRotations_error_cases 581109487465660415 1 0).2.2.2.1.mpr
     (by decide),
   (h3NeighborRotations_error_cases 0x8029fffffffffff 2 0).2.2.2.2.1
     (by decide) (by decide) (by decide),
   ((h3NeighborRotations_error_cases 0x8029fffffffffff 7 0).2.2.2.2.2
     (by decide)).mpr (by decide)⟩

/-- Two's-complement wrap of an Int into the i32 range: the release-build
    result of overflowing 32-bit arithmetic in cellToChildrenSize
    (h3_index.rs); debug builds panic at the same spot instead. -/
def wrap32 (x : Int) : Int := (x + 2 ^ 31) % 2 ^ 32 - 2 ^ 31

/-- Rust `7i32.pow n` (h3_index.rs): repeated 32-bit multiplication. -/
def pow7i32 : Nat → Int
  | 0 => 1
  | n + 1 => wrap32 (7 * pow7i32 n)

/-- Rust truncated division (toward zero) for a positive right operand. -/
def rustDiv (a b : Int) : Int := if 0 ≤ a then a / b else -(-a / b)

/-- _hasChildAtRes from h3_index.rs. -/
def _hasChildAtRes (h childRes : Nat) : Bool :=
  if childRes < H3_GET_RESOLUTION h ∨ MAX_H3_RES < childRes then false
  else true

/-- cellToChildrenSize from h3_index.rs: the count is computed with
    7i32.pow(n) in 32-bit arithmetic and then cast to i64. -/
def cellToChildrenSize (h childRes : Nat) : Except Error Int :=
  if ¬_hasChildAtRes h childRes then .error .ResDomain
  else
    let n := childRes - H3_GET_RESOLUTION h
    if isPentagon h then
      .ok (wrap32 (1 + wrap32 (5 * rustDiv (wrap32 (pow7i32 n - 1)) 6)))
    else .ok (pow7i32 n)

/-- validateChildPos from h3_index.rs. -/
def validateChildPos (childPos : Int) (parent childRes : Nat) :
    Except Error Unit :=
  match cellToChildrenSize parent childRes with
  | .error e => .error e
  | .ok maxChildCount =>
    if childPos < 0 ∨ maxChildCount ≤ childPos then .error .Domain
    else .ok ()

/-- Hexagon digit loop of childPosToCell (h3_index.rs); `count` counts the
    remaining values of the loop variable res = resOffset - count + 1. All
    idx values reaching the digit computation are nonnegative. -/
def childPosHexLoop (parentRes resOffset : Nat) : Nat → Nat → Int → Nat
  | child, 0, _ => child
  | child, count + 1, idx =>
    let res := resOffset - count
    let resWidth : Int := (7 : Int) ^ (resOffset - res)
    childPosHexLoop parentRes resOffset
      (H3_SET_INDEX_DIGIT child (parentRes + res) (idx / resWidth).toNat)
      count (idx % resWidth)

/-- Pentagon digit loop of childPosToCell (h3_index.rs). -/
def childPosPentLoop (parentRes resOffset : Nat) :
    Nat → Nat → Int → Bool → Nat
  | child, 0, _, _ => child
  | child, count + 1, idx, inPent =>
    let res := resOffset - count
    let resWidth : Int := (7 : Int) ^ (resOffset - res)
    if inPent then
      let pentWidth := 1 + 5 * (resWidth - 1) / 6
      if idx < pentWidth then
        childPosPentLoop parentRes resOffset
          (H3_SET_INDEX_DIGIT child (parentRes + res) 0) count idx true
      else
        childPosPentLoop parentRes resOffset
          (H3_SET_INDEX_DIGIT child (parentRes + res)
            (((idx - pentWidth) / resWidth).toNat + 2))
          count ((idx - pentWidth) % resWidth) false
    else
      childPosPentLoop parentRes resOffset
        (H3_SET_INDEX_DIGIT child (parentRes + res) (idx / resWidth).toNat)
        count (idx % resWidth) false

/-- childPosToCell from h3_index.rs (childRes is a resolution, so the
    negative-childRes guard of the i32 parameter cannot fire here). -/
def childPosToCell (childPos : Int) (parent childRes : Nat) :
    Except Error Nat :=
  if MAX_H3_RES < childRes then .error .ResDomain
  else
    let parentRes := H3_GET_RESOLUTION parent
    if childRes < parentRes then .error .ResMismatch
    else
      match validateChildPos childPos parent childRes with
      | .error e => .error e
      | .ok _ =>
        let resOffset := childRes - parentRes
        let child := H3_SET_RESOLUTION parent childRes
        if isPentagon parent then
          .ok (childPosPentLoop parentRes resOffset child resOffset childPos
            true)
        else
          .ok (childPosHexLoop parentRes resOffset child resOffset childPos)

set_option maxRecDepth 4000 in
/-- C8 (code bug): cellToChildrenSize computes the child count with
    7i32.pow(n) in 32-bit arithmetic; at n = 12 this overflows (wrapping in
    release builds, panicking in debug builds), so the res-0 hexagon base
    cell 0 reports 956385313 children at child resolution 12 instead of the
    exact 7^12 = 13841287201 required by the claim and by the function's own
    documentation. -/
theorem cellToChildrenSize_overflow_bug :
    cellToChildrenSize 0x8001fffffffffff 12 = .ok 956385313 ∧
    (956385313 : Int) ≠ 7 ^ 12 :=
  ⟨by rfl, by decide⟩

set_option maxRecDepth 4000 in
/-- C7 (code bug): at child resolution 13 the same 32-bit overflow makes the
    reported child count of the res-0 hexagon base cell 0 negative, so
    childPosToCell rejects even position 0 with the Domain error although
    the cell has 7^13 > 0 children at that resolution. -/
theorem childPosToCell_overflow_bug :
    cellToChildrenSize 0x8001fffffffffff 13 = .ok (-1895237401) ∧
    ((-1895237401 : Int) < 0) ∧
    childPosToCell 0 0x8001fffffffffff 13 = .error .Domain ∧
    ((0 : Int) < 7 ^ 13) :=
  ⟨by rfl, by decide, by rfl, by decide⟩

theorem mode_of_setMode (h v : Nat) (hv : v < 16) :
    H3_GET_MODE (H3_SET_MODE h v) = v := by
  rw [H3_SET_MODE_eq, H3_GET_MODE_eq]
  exact fieldGet_fieldSet_same h 59 4 v hv (by omega)

theorem mode_of_setReserved (h v : Nat) (hv : v < 8) :
    H3_GET_MODE (H3_SET_RESERVED_BITS h v) = H3_GET_MODE h := by
  rw [H3_SET_RESERVED_BITS_eq, H3_GET_MODE_eq, H3_GET_MODE_eq]
  exact fieldGet_fieldSet_disjoint h 56 3 v 59 4 hv (by omega) (by omega)
    (by omega)

theorem reserved_of_setReserved (h v : Nat) (hv : v < 8) :
    H3_GET_RESERVED_BITS (H3_SET_RESERVED_BITS h v) = v := by
  rw [H3_SET_RESERVED_BITS_eq, H3_GET_RESERVED_BITS_eq]
  exact fieldGet_fieldSet_same h 56 3 v hv (by omega)

theorem testBit_of_fieldGet (h s w i : Nat) (hi : i < w) :
    h.testBit (s + i) = (fieldGet h s w).testBit i := by
  rw [fieldGet_testBit]
  simp [hi]

/-- Setting mode 2 and a direction in the reserved bits, then restoring mode
    1 and reserved 0, recovers a cell whose mode was 1 and reserved bits 0:
    the origin recovery of getDirectedEdgeOrigin (directed_edge.rs). -/
theorem edge_mode_reserved_recovery (h d : Nat) (hlt : h < 2 ^ 64)
    (hm : H3_GET_MODE h = 1) (hr : H3_GET_RESERVED_BITS h = 0) (hd : d < 8) :
    H3_SET_RESERVED_BITS
        (H3_SET_MODE (H3_SET_RESERVED_BITS (H3_SET_MODE h 2) d) 1) 0 = h := by
  rw [H3_GET_MODE_eq] at hm
  rw [H3_GET_RESERVED_BITS_eq] at hr
  have hmbit : ∀ i, i < 4 → h.testBit (59 + i) = (1 : Nat).testBit i := by
    intro i hi
    rw [testBit_of_fieldGet h 59 4 i hi, hm]
  have hrbit : ∀ i, i < 3 → h.testBit (56 + i) = false := by
    intro i hi
    rw [testBit_of_fieldGet h 56 3 i hi, hr]
    simp
  rw [H3_SET_RESERVED_BITS_eq, H3_SET_MODE_eq, H3_SET_RESERVED_BITS_eq,
    H3_SET_MODE_eq]
  apply Nat.eq_of_testBit_eq
  intro j
  rw [fieldSet_testBit _ 56 3 0 (by omega) (by omega),
    fieldSet_testBit _ 59 4 1 (by omega) (by omega),
    fieldSet_testBit _ 56 3 d (by omega) (by omega),
    fieldSet_testBit _ 59 4 2 (by omega) (by omega)]
  by_cases h1 : 56 ≤ j ∧ j < 59
  · rw [if_pos h1]
    have := hrbit (j - 56) (by omega)
    rw [show 56 + (j - 56) = j from by omega] at this
    rw [this]
    simp
  · rw [if_neg h1]
    by_cases h2 : 59 ≤ j ∧ j < 63
    · rw [if_pos h2]
      have := hmbit (j - 59) (by omega)
      rw [show 59 + (j - 59) = j from by omega] at this
      rw [this]
      simp [show j < 64 from by omega]
    · rw [if_neg h2, if_neg h1, if_neg h2]
      by_cases h64 : j < 64
      · simp [h64]
      · have : h.testBit j = false := by
          apply Nat.testBit_eq_false_of_lt
          calc h < 2 ^ 64 := hlt
            _ ≤ 2 ^ j := Nat.pow_le_pow_right (by omega) (by omega)
        simp [h64, this]

/-- The search loop of directionForNeighbor (algos.rs): tries directions
    d, d + 1, ... while `count` candidates remain, each with a fresh
    rotations value of 0, and returns the first whose neighbor equals the
    destination; 7 (the invalid digit) if none does. -/
def directionForNeighborLoop (origin destination : Nat) : Nat → Nat → Nat
  | _, 0 => 7
  | d, count + 1 =>
    match h3NeighborRotations origin d 0 with
    | .ok (neighbor, _) =>
      if neighbor = destination then d
      else directionForNeighborLoop origin destination (d + 1) count
    | .error _ => directionForNeighborLoop origin destination (d + 1) count

/-- directionForNeighbor from algos.rs: brute-forces the directions up to
    IJ, starting at J for pentagons (skipping the deleted K) and at K
    otherwise. -/
def directionForNeighbor (origin destination : Nat) : Nat :=
  if isPentagon origin then directionForNeighborLoop origin destination 2 5
  else directionForNeighborLoop origin destination 1 6

/-- cellsToDirectedEdge from directed_edge.rs. -/
def cellsToDirectedEdge (origin destination : Nat) : Except Error Nat :=
  let direction := directionForNeighbor origin destination
  if direction = 7 then .error .NotNeighbors
  else
    .ok (H3_SET_RESERVED_BITS (H3_SET_MODE origin H3_DIRECTEDEDGE_MODE)
      direction)

/-- getDirectedEdgeOrigin from directed_edge.rs. -/
def getDirectedEdgeOrigin (edge : Nat) : Except Error Nat :=
  if H3_GET_MODE edge ≠ H3_DIRECTEDEDGE_MODE then .error .DirectedEdgeInvalid
  else .ok (H3_SET_RESERVED_BITS (H3_SET_MODE edge H3_CELL_MODE) 0)

/-- getDirectedEdgeDestination from directed_edge.rs (the reserved bits are
    a 3-bit field, so the Direction::from_i32 unwrap always succeeds). -/
def getDirectedEdgeDestination (edge : Nat) : Except Error Nat :=
  let direction := H3_GET_RESERVED_BITS edge
  match getDirectedEdgeOrigin edge with
  | .error e => .error e
  | .ok origin =>
    match h3NeighborRotations origin direction 0 with
    | .error e => .error e
    | .ok (neighbor, _) => .ok neighbor

/-- b is a one-step grid neighbor of a, for a direction in the range that
    directionForNeighbor searches (J..IJ for pentagons, K..IJ otherwise). -/
def isNeighborOf (a b : Nat) : Prop :=
  ∃ d rot, (if isPentagon a then 2 else 1) ≤ d ∧ d ≤ 6 ∧
    h3NeighborRotations a d 0 = .ok (b, rot)

theorem directionForNeighborLoop_spec (origin destination : Nat) :
    ∀ count d,
      (directionForNeighborLoop origin destination d count = 7 ∧
        (∀ d' rot n, d ≤ d' → d' < d + count →
          h3NeighborRotations origin d' 0 = .ok (n, rot) →
            n ≠ destination)) ∨
      (∃ d' rot, d ≤ d' ∧ d' < d + count ∧
        directionForNeighborLoop origin destination d count = d' ∧
        h3NeighborRotations origin d' 0 = .ok (destination, rot)) := by
  intro count
  induction count with
  | zero =>
    intro d
    left
    exact ⟨rfl, fun d' rot n h1 h2 _ => by omega⟩
  | succ c ih =>
    intro d
    rcases hstep : h3NeighborRotations origin d 0 with e | ⟨n, rot⟩
    · have hloop : directionForNeighborLoop origin destination d (c + 1) =
          directionForNeighborLoop origin destination (d + 1) c := by
        simp only [directionForNeighborLoop, hstep]
      rcases ih (d + 1) with ⟨h7, hnone⟩ | ⟨d', rot', hge, hlt, hl, hok⟩
      · left
        refine ⟨hloop.trans h7, fun d' rot' n' h1 h2 hok' => ?_⟩
        rcases Nat.eq_or_lt_of_le h1 with heq | hlt2
        · subst heq
          rw [hstep] at hok'
          exact absurd hok' (by simp)
        · exact hnone d' rot' n' (by omega) (by omega) hok'
      · right
        exact ⟨d', rot', by omega, by omega, hloop.trans hl, hok⟩
    · by_cases heq : n = destination
      · right
        subst heq
        refine ⟨d, rot, le_rfl, by omega, ?_, hstep⟩
        simp only [directionForNeighborLoop, hstep]
        simp
      · have hloop : directionForNeighborLoop origin destination d (c + 1) =
            directionForNeighborLoop origin destination (d + 1) c := by
          simp only [directionForNeighborLoop, hstep, if_neg heq]
        rcases ih (d + 1) with ⟨h7, hnone⟩ | ⟨d', rot', hge, hlt, hl, hok⟩
        · left
          refine ⟨hloop.trans h7, fun d' rot' n' h1 h2 hok' => ?_⟩
          rcases Nat.eq_or_lt_of_le h1 with heq2 | hlt2
          · subst heq2
            rw [hstep] at hok'
            simp only [Except.ok.injEq, Prod.mk.injEq] at hok'
            rw [← hok'.1]
            exact heq
          · exact hnone d' rot' n' (by omega) (by omega) hok'
        · right
          exact ⟨d', rot', by omega, by omega, hloop.trans hl, hok⟩

set_option maxRecDepth 4000 in
/-- C9: for neighboring cells a and b (a valid; b the result of one
    neighbor step from a in a direction that directionForNeighbor searches),
    cellsToDirectedEdge succeeds and the edge round-trips through
    getDirectedEdgeOrigin and getDirectedEdgeDestination; for valid cells
    that are not neighbors it returns the NotNeighbors error. -/
theorem cellsToDirectedEdge_round_trip (a b : Nat) (hlt : a < 2 ^ 64)
    (ha : isValidCell a = true) (hb : isValidCell b = true) :
    (isNeighborOf a b →
      ∃ e, cellsToDirectedEdge a b = .ok e ∧
        getDirectedEdgeOrigin e = .ok a ∧
        getDirectedEdgeDestination e = .ok b) ∧
    (¬isNeighborOf a b →
      cellsToDirectedEdge a b = .error .NotNeighbors) := by
  have hchar := (isValidCell_characterization a).mp ha
  have hmode : H3_GET_MODE a = 1 := hchar.2.1
  have hresv : H3_GET_RESERVED_BITS a = 0 := hchar.2.2.1
  constructor
  · rintro ⟨d, rot, hdlo, hdhi, hstep⟩
    have key : ∃ d' rot', directionForNeighbor a b = d' ∧ d' < 7 ∧
        h3NeighborRotations a d' 0 = .ok (b, rot') := by
      by_cases hpent : isPentagon a = true
      · rcases directionForNeighborLoop_spec a b 5 2 with
          ⟨h7, hnone⟩ | ⟨d', rot', hge, hlt', hl, hok⟩
        · exfalso
          rw [if_pos hpent] at hdlo
          exact hnone d rot b (by omega) (by omega) hstep rfl
        · exact ⟨d', rot',
            by rw [directionForNeighbor, if_pos hpent]; exact hl,
            by omega, hok⟩
      · rcases directionForNeighborLoop_spec a b 6 1 with
          ⟨h7, hnone⟩ | ⟨d', rot', hge, hlt', hl, hok⟩
        · exfalso
          rw [if_neg hpent] at hdlo
          exact hnone d rot b (by omega) (by omega) hstep rfl
        · exact ⟨d', rot',
            by rw [directionForNeighbor, if_neg hpent]; exact hl,
            by omega, hok⟩
    obtain ⟨d', rot', hdir, hd7, hok⟩ := key
    have hedge : cellsToDirectedEdge a b =
        .ok (H3_SET_RESERVED_BITS (H3_SET_MODE a H3_DIRECTEDEDGE_MODE) d') := by
      simp only [cellsToDirectedEdge, hdir]
      rw [if_neg (by omega)]
    have hm2 : H3_GET_MODE
        (H3_SET_RESERVED_BITS (H3_SET_MODE a H3_DIRECTEDEDGE_MODE) d') =
          H3_DIRECTEDEDGE_MODE := by
      rw [mode_of_setReserved _ _ (by omega), mode_of_setMode _ _ (by decide)]
    have hrecover : H3_SET_RESERVED_BITS
        (H3_SET_MODE (H3_SET_RESERVED_BITS
          (H3_SET_MODE a H3_DIRECTEDEDGE_MODE) d') H3_CELL_MODE) 0 = a :=
      edge_mode_reserved_recovery a d' hlt hmode hresv (by omega)
    have horig : getDirectedEdgeOrigin
        (H3_SET_RESERVED_BITS (H3_SET_MODE a H3_DIRECTEDEDGE_MODE) d') =
          .ok a := by
      rw [getDirectedEdgeOrigin, if_neg (by rw [hm2]; simp), hrecover]
    refine ⟨_, hedge, horig, ?_⟩
    rw [getDirectedEdgeDestination]
    rw [show H3_GET_RESERVED_BITS
        (H3_SET_RESERVED_BITS (H3_SET_MODE a H3_DIRECTEDEDGE_MODE) d') = d'
      from reserved_of_setReserved _ _ (by omega)]
    rw [horig]
    simp only [hok]
  · intro hnon
    have h7 : directionForNeighbor a b = 7 := by
      by_cases hpent : isPentagon a = true
      · rcases directionForNeighborLoop_spec a b 5 2 with
          ⟨h7', _⟩ | ⟨d', rot', hge, hlt', hl, hok⟩
        · rw [directionForNeighbor, if_pos hpent]
          exact h7'
        · exact absurd ⟨d', rot', by rw [if_pos hpent]; omega, by omega, hok⟩
            hnon
      · rcases directionForNeighborLoop_spec a b 6 1 with
          ⟨h7', _⟩ | ⟨d', rot', hge, hlt', hl, hok⟩
        · rw [directionForNeighbor, if_neg hpent]
          exact h7'
        · exact absurd ⟨d', rot', by rw [if_neg hpent]; omega, by omega, hok⟩
            hnon
    simp [cellsToDirectedEdge, h7]

/-- Witness for C9 at concrete inputs: the res-0 cell 0x8029fffffffffff and
    its J-direction neighbor 0x8027fffffffffff round-trip through the
    directed-edge encoding. -/
theorem cellsToDirectedEdge_round_trip_witness :
    ∃ e, cellsToDirectedEdge 0x8029fffffffffff 0x8027fffffffffff = .ok e ∧
      getDirectedEdgeOrigin e = .ok 0x8029fffffffffff ∧
      getDirectedEdgeDestination e = .ok 0x8027fffffffffff :=
  (cellsToDirectedEdge_round_trip 0x8029fffffffffff 0x8027fffffffffff
    (by decide) (by decide) (by decide)).1
    ⟨2, 3, by decide, by decide, by rfl⟩

/-- The reach-the-ring loop of gridRingUnsafe (algos.rs): `count` steps in
    the I direction, failing if a pentagon is passed through. -/
def gridRingReach : Nat → Nat → Int → Except Error (Nat × Int)
  | origin, 0, rotations => .ok (origin, rotations)
  | origin, count + 1, rotations =>
    match h3NeighborRotations origin NEXT_RING_DIRECTION rotations with
    | .error e => .error e
    | .ok (o1, rot1) =>
      if isPentagon o1 then .error .Pentagon
      else gridRingReach o1 count rot1

/-- One side of the ring walk of gridRingUnsafe (algos.rs): `count` more
    steps in DIRECTIONS[direction], position pos = k - count within the
    side; the very last cell of the whole walk (pos = k-1 on side 5) is
    traversed but not pushed. -/
def gridRingSide (k direction : Nat) :
    Nat → Nat → Int → List Nat → Except Error (Nat × Int × List Nat)
  | origin, 0, rotations, out => .ok (origin, rotations, out)
  | origin, count + 1, rotations, out =>
    let pos := k - (count + 1)
    match h3NeighborRotations origin (DIRECTIONS.getD direction 0)
        rotations with
    | .error e => .error e
    | .ok (o1, rot1) =>
      if pos ≠ k - 1 ∨ direction ≠ 5 then
        if isPentagon o1 then .error .Pentagon
        else gridRingSide k direction o1 count rot1 (out ++ [o1])
      else gridRingSide k direction o1 count rot1 out

/-- The six-side loop of gridRingUnsafe (algos.rs); `count` sides remain,
    the current side index is 6 - count. -/
def gridRingSides (k : Nat) :
    Nat → Nat → Int → List Nat → Except Error (Nat × Int × List Nat)
  | 0, origin, rotations, out => .ok (origin, rotations, out)
  | count + 1, origin, rotations, out =>
    match gridRingSide k (6 - (count + 1)) origin k rotations out with
    | .error e => .error e
    | .ok (o1, rot1, out1) => gridRingSides k count o1 rot1 out1

/-- gridRingUnsafe from algos.rs. -/
def gridRingUnsafe (origin : Nat) (k : Nat) : Except Error (List Nat) :=
  if k = 0 then .ok [origin]
  else if isPentagon origin then .error .Pentagon
  else
    match gridRingReach origin k 0 with
    | .error e => .error e
    | .ok (o1, rot1) =>
      let lastIndex := o1
      match gridRingSides k 6 o1 rot1 [o1] with
      | .error e => .error e
      | .ok (o2, _, out) =>
        if lastIndex ≠ o2 then .error .Pentagon else .ok out

theorem gridRingSide_length (k direction : Nat) (hk : 1 ≤ k) :
    ∀ count, count ≤ k → ∀ o rot out o' rot' out',
      gridRingSide k direction o count rot out = .ok (o', rot', out') →
      out'.length + (if direction = 5 ∧ 1 ≤ count then 1 else 0) =
        out.length + count := by
  intro count
  induction count with
  | zero =>
    intro _ o rot out o' rot' out' hok
    simp only [gridRingSide, Except.ok.injEq, Prod.mk.injEq] at hok
    obtain ⟨-, -, h3⟩ := hok
    simp [← h3]
  | succ c ih =>
    intro hck o rot out o' rot' out' hok
    simp only [gridRingSide] at hok
    rcases hstep : h3NeighborRotations o (DIRECTIONS.getD direction 0) rot
      with e | ⟨o1, rot1⟩
    · rw [hstep] at hok
      exact absurd hok (by simp)
    · rw [hstep] at hok
      simp only at hok
      by_cases hb : k - (c + 1) ≠ k - 1 ∨ direction ≠ 5
      · rw [if_pos hb] at hok
        by_cases hp : isPentagon o1 = true
        · rw [if_pos hp] at hok
          exact absurd hok (by simp)
        · rw [if_neg hp] at hok
          have := ih (by omega) o1 rot1 (out ++ [o1]) o' rot' out' hok
          rw [List.length_append] at this
          simp only [List.length_singleton] at this
          by_cases hd5 : direction = 5
          · have hc1 : 1 ≤ c := by
              rcases hb with hb | hb
              · omega
              · exact absurd hd5 hb
            simp only [hd5, true_and] at this ⊢
            rw [if_pos hc1] at this
            rw [if_pos (by omega)]
            omega
          · simp only [hd5, false_and, if_false] at this ⊢
            omega
      · rw [if_neg hb] at hok
        push_neg at hb
        obtain ⟨hpos, hd5⟩ := hb
        have hc0 : c = 0 := by omega
        subst hc0
        simp only [gridRingSide, Except.ok.injEq, Prod.mk.injEq] at hok
        obtain ⟨-, -, h3⟩ := hok
        subst hd5
        simp [← h3]

theorem gridRingSides_length (k : Nat) (hk : 1 ≤ k) :
    ∀ count, count ≤ 6 → ∀ o rot out o' rot' out',
      gridRingSides k count o rot out = .ok (o', rot', out') →
      out'.length + (if 1 ≤ count then 1 else 0) =
        out.length + count * k := by
  intro count
  induction count with
  | zero =>
    intro _ o rot out o' rot' out' hok
    simp only [gridRingSides, Except.ok.injEq, Prod.mk.injEq] at hok
    obtain ⟨-, -, h3⟩ := hok
    simp [← h3]
  | succ c ih =>
    intro hc6 o rot out o' rot' out' hok
    simp only [gridRingSides] at hok
    rcases hside : gridRingSide k (6 - (c + 1)) o k rot out
      with e | ⟨o1, rot1, out1⟩
    · rw [hside] at hok
      exact absurd hok (by simp)
    · rw [hside] at hok
      simp only at hok
      have hs := gridRingSide_length k (6 - (c + 1)) hk k le_rfl
        o rot out o1 rot1 out1 hside
      have hrest := ih (by omega) o1 rot1 out1 o' rot' out' hok
      by_cases hc0 : c = 0
      · subst hc0
        simp only [show 6 - (0 + 1) = 5 from rfl, true_and] at hs
        rw [if_pos hk] at hs
        simp at hrest
        rw [if_pos (by omega)]
        omega
      · have hs5 : ¬(6 - (c + 1) = 5) := by omega
        simp only [hs5, false_and, if_false] at hs
        rw [if_pos (by omega)] at hrest
        rw [if_pos (by omega)]
        have : (c + 1) * k = c * k + k := by ring
        omega

/-- C6: gridRingUnsafe returns [c] at k = 0 for every cell (pentagons
    included); every successful call returns exactly max(1, 6k) cells; and
    when the reach phase and the 6-side walk both complete, the result is
    the Pentagon error exactly if the final cell of the walk differs from
    the first ring cell, and the collected ring otherwise. -/
theorem gridRingUnsafe_spec :
    (∀ c, gridRingUnsafe c 0 = .ok [c]) ∧
    (∀ c k out, gridRingUnsafe c k = .ok out →
      out.length = max 1 (6 * k)) ∧
    (∀ c k o1 rot1 o2 rot2 out, 1 ≤ k → isPentagon c = false →
      gridRingReach c k 0 = .ok (o1, rot1) →
      gridRingSides k 6 o1 rot1 [o1] = .ok (o2, rot2, out) →
      gridRingUnsafe c k =
        if o1 ≠ o2 then .error .Pentagon else .ok out) := by
  refine ⟨fun c => rfl, ?_, ?_⟩
  · intro c k out hok
    by_cases hk : k = 0
    · subst hk
      simp only [gridRingUnsafe, if_true, Except.ok.injEq] at hok
      rw [← hok]
      rfl
    · simp only [gridRingUnsafe, if_neg hk] at hok
      by_cases hp : isPentagon c = true
      · rw [if_pos hp] at hok
        exact absurd hok (by simp)
      · rw [if_neg hp] at hok
        rcases hreach : gridRingReach c k 0 with e | ⟨o1, rot1⟩
        · rw [hreach] at hok
          exact absurd hok (by simp)
        · rw [hreach] at hok
          simp only at hok
          rcases hsides : gridRingSides k 6 o1 rot1 [o1]
            with e | ⟨o2, rot2, out1⟩
          · rw [hsides] at hok
            exact absurd hok (by simp)
          · rw [hsides] at hok
            simp only at hok
            by_cases hne : o1 ≠ o2
            · rw [if_pos hne] at hok
              exact absurd hok (by simp)
            · rw [if_neg hne] at hok
              simp only [Except.ok.injEq] at hok
              subst hok
              have := gridRingSides_length k (by omega) 6 (by omega)
                o1 rot1 [o1] o2 rot2 out1 hsides
              rw [if_pos (by omega)] at this
              simp only [List.length_singleton] at this
              omega
  · intro c k o1 rot1 o2 rot2 out hk hp hreach hsides
    simp only [gridRingUnsafe, if_neg (show ¬k = 0 from by omega),
      if_neg (show ¬isPentagon c = true from by simp [hp]), hreach]
    simp only [hsides]

/-- Witness for C6 at a concrete res-1 cell whose k = 1 ring avoids all
    pentagons. -/
theorem gridRingUnsafe_spec_witness :
    gridRingUnsafe 581672437419081727 0 = .ok [581672437419081727] ∧
    (gridRingUnsafe 581672437419081727 1 =
      .ok [581690029605126143, 581698825698148351, 581681233512103935,
        581685631558615039, 581676835465592831, 581694427651637247]) ∧
    ([581690029605126143, 581698825698148351, 581681233512103935,
        581685631558615039, 581676835465592831,
        (581694427651637247 : Nat)].length = max 1 (6 * 1)) :=
  ⟨gridRingUnsafe_spec.1 581672437419081727,
   by
    rw [gridRingUnsafe_spec.2.2 581672437419081727 1 581690029605126143 0
      581690029605126143 0
      [581690029605126143, 581698825698148351, 581681233512103935,
        581685631558615039, 581676835465592831, 581694427651637247]
      (by omega) (by rfl) (by rfl) (by rfl)]
    simp,
   gridRingUnsafe_spec.2.1 581672437419081727 1
     [581690029605126143, 581698825698148351, 581681233512103935,
       581685631558615039, 581676835465592831, 581694427651637247]
     (by rfl)⟩

/-- maxGridDiskSize from algos.rs. -/
def maxGridDiskSize (k : Nat) : Nat := 3 * k * (k + 1) + 1

/-- The while loop of gridDiskDistancesUnsafe (algos.rs) with its counters
    (ring, direction, i) and rotation state carried explicitly. The source
    loop pushes exactly one cell per iteration; `n` bounds the remaining
    iterations (the top-level call passes 3k(k+1), the exact number of
    pushes, so the Failed fallback below is never reached from the initial
    state; every theorem below is conditioned on an Ok result). -/
def diskLoop (k : Nat) :
    Nat → Nat → Nat → Nat → Nat → Int → List (Nat × Nat) →
      Except Error (List (Nat × Nat))
  | 0, ring, _, _, _, _, out => if k < ring then .ok out else .error .Failed
  | n + 1, ring, direction, i, origin, rotations, out =>
    if k < ring then .ok out
    else
      match ((if direction = 0 ∧ i = 0 then
          match h3NeighborRotations origin NEXT_RING_DIRECTION rotations with
          | .error e => .error e
          | .ok (o1, rot1) =>
            if isPentagon o1 then .error .Pentagon else .ok (o1, rot1)
        else .ok (origin, rotations)) : Except Error (Nat × Int)) with
      | .error e => .error e
      | .ok (o1, rot1) =>
        match h3NeighborRotations o1 (DIRECTIONS.getD direction 0) rot1 with
        | .error e => .error e
        | .ok (o2, rot2) =>
          if isPentagon o2 then .error .Pentagon
          else
            if i + 1 = ring then
              if direction + 1 = 6 then
                diskLoop k n (ring + 1) 0 0 o2 rot2 (out ++ [(o2, ring)])
              else
                diskLoop k n ring (direction + 1) 0 o2 rot2
                  (out ++ [(o2, ring)])
            else diskLoop k n ring direction (i + 1) o2 rot2
              (out ++ [(o2, ring)])

/-- gridDiskDistancesUnsafe from algos.rs (k is u32, so the k < 0 guard of
    the source cannot fire). -/
def gridDiskDistancesUnsafe (origin : Nat) (k : Nat) :
    Except Error (List (Nat × Nat)) :=
  if isPentagon origin then .error .Pentagon
  else diskLoop k (3 * k * (k + 1)) 1 0 0 origin 0 [(origin, 0)]

/-- Spec-side model of one enumeration step of the disk walk (claim C4's
    description): move from the current cell in the given direction digit,
    record the reached cell with the given distance label, and fail with
    Pentagon if a pentagon is reached. -/
def specDiskStep (dir ring : Nat) (st : Nat × Int × List (Nat × Nat)) :
    Except Error (Nat × Int × List (Nat × Nat)) :=
  match h3NeighborRotations st.1 dir st.2.1 with
  | .error e => .error e
  | .ok (o2, rot2) =>
    if isPentagon o2 then .error .Pentagon
    else .ok (o2, rot2, st.2.2 ++ [(o2, ring)])

/-- Spec-side inner loop: `count` consecutive positions along the side with
    direction index `dirIdx` of ring `ring`, spec's positions in increasing
    order. -/
def specDiskPositions (dirIdx ring : Nat) :
    Nat → Nat × Int × List (Nat × Nat) →
      Except Error (Nat × Int × List (Nat × Nat))
  | 0, st => .ok st
  | count + 1, st =>
    match specDiskStep (DIRECTIONS.getD dirIdx 0) ring st with
    | .error e => .error e
    | .ok st' => specDiskPositions dirIdx ring count st'

/-- Spec-side middle loop: the sides of ring `ring`, taken in the fixed
    DIRECTIONS order; `scount` sides remain, so the current side index is
    6 - scount. -/
def specDiskSides (ring : Nat) :
    Nat → Nat × Int × List (Nat × Nat) →
      Except Error (Nat × Int × List (Nat × Nat))
  | 0, st => .ok st
  | scount + 1, st =>
    match specDiskPositions (6 - (scount + 1)) ring ring st with
    | .error e => .error e
    | .ok st' => specDiskSides ring scount st'

/-- Spec-side outer loop: rings `ring`, `ring + 1`, ... in increasing order
    (`left` rings remain). Each ring starts by moving outward along the
    NEXT_RING_DIRECTION axis (checking for a pentagon) without recording a
    cell, then walks the six sides. -/
def specDiskRings (left ring : Nat) (st : Nat × Int × List (Nat × Nat)) :
    Except Error (Nat × Int × List (Nat × Nat)) :=
  match left with
  | 0 => .ok st
  | left + 1 =>
    match h3NeighborRotations st.1 NEXT_RING_DIRECTION st.2.1 with
    | .error e => .error e
    | .ok (o1, rot1) =>
      if isPentagon o1 then .error .Pentagon
      else
        match specDiskSides ring 6 (o1, rot1, st.2.2) with
        | .error e => .error e
        | .ok st' => specDiskRings left (ring + 1) st'

/-- Spec-side model of gridDiskDistancesUnsafe following claim C4's
    description of the traversal order: the origin first with distance 0,
    then rings 1..k in increasing order, each ring enumerated side by side
    in the fixed direction order with positions increasing. -/
def specGridDiskDistancesUnsafe (origin : Nat) (k : Nat) :
    Except Error (List (Nat × Nat)) :=
  if isPentagon origin then .error .Pentagon
  else
    match specDiskRings k 1 (origin, 0, [(origin, 0)]) with
    | .error e => .error e
    | .ok st => .ok st.2.2

def sidesFuel (r : Nat) : Nat → Nat
  | 0 => 0
  | s + 1 => r + sidesFuel r s

def ringsFuel : Nat → Nat → Nat
  | 0, _ => 0
  | left + 1, ring => sidesFuel ring 6 + ringsFuel left (ring + 1)

lemma diskLoop_positions (k ring dirIdx : Nat) (hrk : ring ≤ k)
    (hd : dirIdx ≤ 5) :
    ∀ cnt i o rot out m, i + cnt = ring → 1 ≤ cnt → (dirIdx = 0 → 1 ≤ i) →
    diskLoop k (cnt + m) ring dirIdx i o rot out =
      match specDiskPositions dirIdx ring cnt (o, rot, out) with
      | .error e => .error e
      | .ok st =>
        if dirIdx + 1 = 6 then diskLoop k m (ring + 1) 0 0 st.1 st.2.1 st.2.2
        else diskLoop k m ring (dirIdx + 1) 0 st.1 st.2.1 st.2.2 := by
  intro cnt
  induction cnt with
  | zero => intro i o rot out m h1 h2 h3; exact absurd h2 (by omega)
  | succ cnt ih =>
    intro i o rot out m h1 h2 h3
    have hfuel : cnt + 1 + m = (cnt + m) + 1 := by omega
    rw [hfuel]
    rw [diskLoop]
    rw [if_neg (by omega : ¬ k < ring)]
    rw [if_neg (by rintro ⟨h0, hi⟩; have := h3 h0; omega :
      ¬ (dirIdx = 0 ∧ i = 0))]
    cases hnb : h3NeighborRotations o (DIRECTIONS.getD dirIdx 0) rot with
    | error e =>
      simp only [specDiskPositions, specDiskStep, hnb]
    | ok p =>
      obtain ⟨o2, rot2⟩ := p
      by_cases hp : isPentagon o2 = true
      · simp only [specDiskPositions, specDiskStep, hnb, hp, if_true]
      · simp only [Bool.not_eq_true] at hp
        simp only [specDiskPositions, specDiskStep, hnb, hp, Bool.false_eq_true,
          if_false]
        by_cases hend : i + 1 = ring
        · have hc0 : cnt = 0 := by omega
          subst hc0
          rw [if_pos hend]
          simp only [specDiskPositions, Nat.zero_add]
        · rw [if_neg hend]
          rw [ih (i + 1) o2 rot2 (out ++ [(o2, ring)]) m (by omega) (by omega)
            (fun _ => by omega)]

lemma diskLoop_sides (k ring : Nat) (hr1 : 1 ≤ ring) (hrk : ring ≤ k) :
    ∀ scount, 1 ≤ scount → scount ≤ 5 →
    ∀ m o rot out,
    diskLoop k (sidesFuel ring scount + m) ring (6 - scount) 0 o rot out =
      match specDiskSides ring scount (o, rot, out) with
      | .error e => .error e
      | .ok st => diskLoop k m (ring + 1) 0 0 st.1 st.2.1 st.2.2 := by
  intro scount
  induction scount with
  | zero => intro h; exact absurd h (by omega)
  | succ scount ih =>
    intro _ hle m o rot out
    have hf : sidesFuel ring (scount + 1) + m
        = ring + (sidesFuel ring scount + m) := by
      have h1 : sidesFuel ring (scount + 1) = ring + sidesFuel ring scount := rfl
      omega
    rw [hf]
    rw [diskLoop_positions k ring (6 - (scount + 1)) hrk (by omega) ring 0 o rot
      out (sidesFuel ring scount + m) (by omega) hr1 (by omega)]
    simp only [specDiskSides]
    cases hps : specDiskPositions (6 - (scount + 1)) ring ring (o, rot, out) with
    | error e => rfl
    | ok st =>
      obtain ⟨s1, s2, s3⟩ := st
      dsimp only
      by_cases hs0 : scount = 0
      · subst hs0
        rw [if_pos (by omega : 6 - (0 + 1) + 1 = 6)]
        simp only [specDiskSides, sidesFuel, Nat.zero_add]
      · rw [if_neg (by omega : ¬ 6 - (scount + 1) + 1 = 6)]
        have hd2 : 6 - (scount + 1) + 1 = 6 - scount := by omega
        rw [hd2]
        exact ih (by omega) (by omega) m s1 s2 s3

lemma diskLoop_sides5 (k ring : Nat) (hr1 : 1 ≤ ring) (hrk : ring ≤ k)
    (m o : Nat) (rot : Int) (out : List (Nat × Nat)) :
    diskLoop k (sidesFuel ring 5 + m) ring 1 0 o rot out =
      match specDiskSides ring 5 (o, rot, out) with
      | .error e => .error e
      | .ok st => diskLoop k m (ring + 1) 0 0 st.1 st.2.1 st.2.2 := by
  have h := diskLoop_sides k ring hr1 hrk 5 (by omega) (by omega) m o rot out
  norm_num at h
  exact h

lemma specDiskPositions_succ (dirIdx ring cnt : Nat)
    (st : Nat × Int × List (Nat × Nat)) :
    specDiskPositions dirIdx ring (cnt + 1) st =
      match specDiskStep (DIRECTIONS.getD dirIdx 0) ring st with
      | .error e => .error e
      | .ok st' => specDiskPositions dirIdx ring cnt st' := rfl

lemma specDiskSides_six (ring : Nat) (st : Nat × Int × List (Nat × Nat)) :
    specDiskSides ring 6 st =
      match specDiskPositions 0 ring ring st with
      | .error e => .error e
      | .ok st' => specDiskSides ring 5 st' := rfl

lemma specDiskRings_succ (left ring : Nat) (st : Nat × Int × List (Nat × Nat)) :
    specDiskRings (left + 1) ring st =
      match h3NeighborRotations st.1 NEXT_RING_DIRECTION st.2.1 with
      | .error e => .error e
      | .ok (o1, rot1) =>
        if isPentagon o1 then .error .Pentagon
        else
          match specDiskSides ring 6 (o1, rot1, st.2.2) with
          | .error e => .error e
          | .ok st' => specDiskRings left (ring + 1) st' := rfl

lemma diskLoop_rings (k : Nat) :
    ∀ left ring, ring + left = k + 1 → 1 ≤ ring →
    ∀ m o rot out,
    diskLoop k (ringsFuel left ring + m) ring 0 0 o rot out =
      match specDiskRings left ring (o, rot, out) with
      | .error e => .error e
      | .ok st => diskLoop k m (ring + left) 0 0 st.1 st.2.1 st.2.2 := by
  intro left
  induction left with
  | zero =>
    intro ring hsum h1 m o rot out
    simp only [ringsFuel, specDiskRings, Nat.zero_add, Nat.add_zero]
  | succ left ih =>
    intro ring hsum h1 m o rot out
    have hrk : ring ≤ k := by omega
    obtain ⟨r', rfl⟩ : ∃ r', ring = r' + 1 := ⟨ring - 1, by omega⟩
    have hf : ringsFuel (left + 1) (r' + 1) + m
        = (r' + (sidesFuel (r' + 1) 5 + (ringsFuel left (r' + 1 + 1) + m))) + 1 := by
      have h7 : ringsFuel (left + 1) (r' + 1)
          = sidesFuel (r' + 1) 6 + ringsFuel left (r' + 1 + 1) := rfl
      have h6 : sidesFuel (r' + 1) 6 = (r' + 1) + sidesFuel (r' + 1) 5 := rfl
      omega
    rw [hf, diskLoop]
    rw [if_neg (by omega : ¬ k < r' + 1)]
    rw [if_pos (⟨rfl, rfl⟩ : (0 : Nat) = 0 ∧ (0 : Nat) = 0)]
    rw [specDiskRings_succ]
    dsimp only
    cases hnb1 : h3NeighborRotations o NEXT_RING_DIRECTION rot with
    | error e => rfl
    | ok p1 =>
      obtain ⟨o1, rot1⟩ := p1
      by_cases hp1 : isPentagon o1 = true
      · simp only [hp1, if_true]
      · simp only [Bool.not_eq_true] at hp1
        simp only [hp1, Bool.false_eq_true, if_false]
        rw [specDiskSides_six, specDiskPositions_succ]
        simp only [specDiskStep]
        cases hnb2 : h3NeighborRotations o1 (DIRECTIONS.getD 0 0) rot1 with
        | error e => rfl
        | ok p2 =>
          obtain ⟨o2, rot2⟩ := p2
          by_cases hp2 : isPentagon o2 = true
          · simp only [hp2, if_true]
          · simp only [Bool.not_eq_true] at hp2
            simp only [hp2, Bool.false_eq_true, if_false]
            by_cases hr0 : r' = 0
            · subst hr0
              rw [if_pos (rfl : (0 : Nat) + 1 = 0 + 1)]
              rw [if_neg (by omega : ¬ (0 : Nat) + 1 = 6)]
              simp only [Nat.zero_add, specDiskPositions]
              rw [diskLoop_sides5 k 1 (by omega) (by omega)
                (ringsFuel left (1 + 1) + m) o2 rot2 (out ++ [(o2, 1)])]
              cases hss : specDiskSides 1 5 (o2, rot2, out ++ [(o2, 1)]) with
              | error e => rfl
              | ok st =>
                obtain ⟨s1, s2, s3⟩ := st
                dsimp only
                rw [ih (1 + 1) (by omega) (by omega) m s1 s2 s3]
                cases hsr : specDiskRings left (1 + 1) (s1, s2, s3) with
                | error e => rfl
                | ok st2 =>
                  dsimp only
                  have hA : 1 + 1 + left = 1 + (left + 1) := by omega
                  rw [hA]
            · rw [if_neg (by omega : ¬ (0 : Nat) + 1 = r' + 1)]
              rw [diskLoop_positions k (r' + 1) 0 hrk (by omega) r' (0 + 1) o2
                rot2 (out ++ [(o2, r' + 1)])
                (sidesFuel (r' + 1) 5 + (ringsFuel left (r' + 1 + 1) + m))
                (by omega) (by omega) (fun _ => by omega)]
              cases hps : specDiskPositions 0 (r' + 1) r'
                  (o2, rot2, out ++ [(o2, r' + 1)]) with
              | error e => rfl
              | ok st =>
                obtain ⟨s1, s2, s3⟩ := st
                dsimp only
                rw [if_neg (by omega : ¬ (0 : Nat) + 1 = 6)]
                simp only [Nat.zero_add]
                rw [diskLoop_sides5 k (r' + 1) (by omega) hrk
                  (ringsFuel left (r' + 1 + 1) + m) s1 s2 s3]
                cases hss : specDiskSides (r' + 1) 5 (s1, s2, s3) with
                | error e => rfl
                | ok st2 =>
                  obtain ⟨t1, t2, t3⟩ := st2
                  dsimp only
                  rw [ih (r' + 1 + 1) (by omega) (by omega) m t1 t2 t3]
                  cases hsr : specDiskRings left (r' + 1 + 1) (t1, t2, t3) with
                  | error e => rfl
                  | ok st3 =>
                    dsimp only
                    have hA : r' + 1 + 1 + left = r' + 1 + (left + 1) := by omega
                    rw [hA]

lemma sidesFuel_six (r : Nat) : sidesFuel r 6 = 6 * r := by
  show r + (r + (r + (r + (r + (r + 0))))) = 6 * r
  ring

lemma ringsFuel_eq : ∀ left a, ringsFuel left (a + 1)
    = 6 * left * a + 3 * left * left + 3 * left := by
  intro left
  induction left with
  | zero => intro a; simp [ringsFuel]
  | succ left ih =>
    intro a
    have h7 : ringsFuel (left + 1) (a + 1)
        = sidesFuel (a + 1) 6 + ringsFuel left (a + 1 + 1) := rfl
    rw [h7, sidesFuel_six, ih (a + 1)]
    ring

lemma gridDiskDistancesUnsafe_eq_spec (origin k : Nat) :
    gridDiskDistancesUnsafe origin k = specGridDiskDistancesUnsafe origin k := by
  unfold gridDiskDistancesUnsafe specGridDiskDistancesUnsafe
  by_cases hp : isPentagon origin = true
  · simp [hp]
  · simp only [Bool.not_eq_true] at hp
    simp only [hp, Bool.false_eq_true, if_false]
    have hfuel : 3 * k * (k + 1) = ringsFuel k 1 + 0 := by
      have h := ringsFuel_eq k 0
      rw [(rfl : (0 : Nat) + 1 = 1)] at h
      rw [h]
      ring
    rw [hfuel]
    rw [diskLoop_rings k k 1 (by omega) (by omega) 0 origin 0 [(origin, 0)]]
    cases hsr : specDiskRings k 1 (origin, 0, [(origin, 0)]) with
    | error e => rfl
    | ok st =>
      dsimp only
      rw [diskLoop]
      rw [if_pos (by omega : k < 1 + k)]

lemma specDiskPositions_cells : ∀ cnt dirIdx ring
    (st res : Nat × Int × List (Nat × Nat)),
    specDiskPositions dirIdx ring cnt st = .ok res →
    ∃ cells, res.2.2 = st.2.2 ++ cells ∧
      cells.map Prod.snd = List.replicate cnt ring := by
  intro cnt
  induction cnt with
  | zero =>
    intro dirIdx ring st res h
    simp only [specDiskPositions] at h
    obtain rfl : st = res := by injection h
    exact ⟨[], by simp⟩
  | succ cnt ih =>
    intro dirIdx ring st res h
    rw [specDiskPositions_succ] at h
    cases hst : specDiskStep (DIRECTIONS.getD dirIdx 0) ring st with
    | error e => rw [hst] at h; exact absurd h (by simp)
    | ok st' =>
      rw [hst] at h
      obtain ⟨cells', hc1, hc2⟩ := ih dirIdx ring st' res h
      simp only [specDiskStep] at hst
      cases hnb : h3NeighborRotations st.1 (DIRECTIONS.getD dirIdx 0) st.2.1 with
      | error e => rw [hnb] at hst; exact absurd hst (by simp)
      | ok p =>
        obtain ⟨o2, rot2⟩ := p
        rw [hnb] at hst
        dsimp only at hst
        by_cases hp : isPentagon o2 = true
        · rw [if_pos hp] at hst; exact absurd hst (by simp)
        · simp only [Bool.not_eq_true] at hp
          rw [if_neg (by simp [hp])] at hst
          obtain rfl : (o2, rot2, st.2.2 ++ [(o2, ring)]) = st' := by
            injection hst
          refine ⟨(o2, ring) :: cells', ?_, ?_⟩
          · rw [hc1]
            simp
          · simp [hc2, List.replicate_succ]

lemma specDiskSides_cells : ∀ scount ring
    (st res : Nat × Int × List (Nat × Nat)),
    specDiskSides ring scount st = .ok res →
    ∃ cells, res.2.2 = st.2.2 ++ cells ∧
      cells.map Prod.snd = List.replicate (scount * ring) ring := by
  intro scount
  induction scount with
  | zero =>
    intro ring st res h
    simp only [specDiskSides] at h
    obtain rfl : st = res := by injection h
    exact ⟨[], by simp⟩
  | succ scount ih =>
    intro ring st res h
    simp only [specDiskSides] at h
    cases hps : specDiskPositions (6 - (scount + 1)) ring ring st with
    | error e => rw [hps] at h; exact absurd h (by simp)
    | ok st' =>
      rw [hps] at h
      dsimp only at h
      obtain ⟨cells1, hc1, hm1⟩ :=
        specDiskPositions_cells ring (6 - (scount + 1)) ring st st' hps
      obtain ⟨cells2, hc2, hm2⟩ := ih ring st' res h
      refine ⟨cells1 ++ cells2, ?_, ?_⟩
      · rw [hc2, hc1, List.append_assoc]
      · rw [List.map_append, hm1, hm2, Nat.succ_mul, Nat.add_comm,
          List.replicate_add]

lemma specDiskRings_cells : ∀ left ring
    (st res : Nat × Int × List (Nat × Nat)),
    specDiskRings left ring st = .ok res →
    ∃ cells, res.2.2 = st.2.2 ++ cells ∧
      cells.map Prod.snd =
        (List.range' ring left).flatMap (fun r => List.replicate (6 * r) r) := by
  intro left
  induction left with
  | zero =>
    intro ring st res h
    simp only [specDiskRings] at h
    obtain rfl : st = res := by injection h
    exact ⟨[], by simp⟩
  | succ left ih =>
    intro ring st res h
    rw [specDiskRings_succ] at h
    cases hnb : h3NeighborRotations st.1 NEXT_RING_DIRECTION st.2.1 with
    | error e => rw [hnb] at h; exact absurd h (by simp)
    | ok p1 =>
      obtain ⟨o1, rot1⟩ := p1
      rw [hnb] at h
      dsimp only at h
      by_cases hp1 : isPentagon o1 = true
      · rw [if_pos hp1] at h; exact absurd h (by simp)
      · simp only [Bool.not_eq_true] at hp1
        rw [if_neg (by simp [hp1])] at h
        cases hss : specDiskSides ring 6 (o1, rot1, st.2.2) with
        | error e => rw [hss] at h; exact absurd h (by simp)
        | ok st' =>
          rw [hss] at h
          dsimp only at h
          obtain ⟨cells1, hc1, hm1⟩ :=
            specDiskSides_cells 6 ring (o1, rot1, st.2.2) st' hss
          obtain ⟨cells2, hc2, hm2⟩ := ih (ring + 1) st' res h
          refine ⟨cells1 ++ cells2, ?_, ?_⟩
          · rw [hc2, hc1]
            dsimp only
            rw [List.append_assoc]
          · rw [List.map_append, hm1, hm2, List.range'_succ, List.flatMap_cons]

lemma flatMap_replicate_length : ∀ n a,
    ((List.range' (a + 1) n).flatMap
      (fun r => List.replicate (6 * r) r)).length
    = 6 * n * a + 3 * n * n + 3 * n := by
  intro n
  induction n with
  | zero => intro a; simp
  | succ n ih =>
    intro a
    rw [List.range'_succ, List.flatMap_cons, List.length_append,
      List.length_replicate, ih (a + 1)]
    ring

/-- C4: gridDiskDistancesUnsafe allocates for maxGridDiskSize(k) = 3k(k+1)+1
    cells; on success the output holds the origin first with distance 0 and
    then, for each ring r = 1..k in increasing order, the 6r cells of ring r
    labelled with distance r, each ring walked side by side in the fixed
    direction order J, JK, K, IK, I, IJ with positions increasing along a
    side: the source loop equals the spec-side nested ring/side/position
    enumeration. -/
theorem gridDiskDistancesUnsafe_spec (origin k : Nat) :
    gridDiskDistancesUnsafe origin k = specGridDiskDistancesUnsafe origin k ∧
    maxGridDiskSize k = 3 * k * (k + 1) + 1 ∧
    ∀ out, gridDiskDistancesUnsafe origin k = .ok out →
      out.length = maxGridDiskSize k ∧
      out.headD (0, 0) = (origin, 0) ∧
      out.map Prod.snd =
        0 :: (List.range' 1 k).flatMap (fun r => List.replicate (6 * r) r) := by
  refine ⟨gridDiskDistancesUnsafe_eq_spec origin k, rfl, ?_⟩
  intro out hok
  rw [gridDiskDistancesUnsafe_eq_spec origin k] at hok
  unfold specGridDiskDistancesUnsafe at hok
  by_cases hp : isPentagon origin = true
  · rw [if_pos hp] at hok
    exact absurd hok (by simp)
  · simp only [Bool.not_eq_true] at hp
    rw [if_neg (by simp [hp])] at hok
    cases hsr : specDiskRings k 1 (origin, 0, [(origin, 0)]) with
    | error e => rw [hsr] at hok; exact absurd hok (by simp)
    | ok st =>
      rw [hsr] at hok
      dsimp only at hok
      obtain rfl : st.2.2 = out := by injection hok
      obtain ⟨cells, hc, hm⟩ :=
        specDiskRings_cells k 1 (origin, 0, [(origin, 0)]) st hsr
      dsimp only at hc
      rw [hc]
      have hm' : cells.map Prod.snd =
          (List.range' (0 + 1) k).flatMap (fun r => List.replicate (6 * r) r) := by
        rw [hm]
      have hlen : cells.length = 6 * k * 0 + 3 * k * k + 3 * k := by
        rw [← flatMap_replicate_length k 0, ← hm', List.length_map]
      refine ⟨?_, by simp, ?_⟩
      · simp only [List.singleton_append, List.length_cons, maxGridDiskSize,
          hlen]
        ring
      · simp only [List.singleton_append, List.map_cons, hm]

theorem gridDiskDistancesUnsafe_spec_witness :
    ([(581672437419081727, 0), (581698825698148351, 1),
      (581681233512103935, 1), (581685631558615039, 1),
      (581676835465592831, 1), (581694427651637247, 1),
      (581690029605126143, 1)] : List (Nat × Nat)).length = maxGridDiskSize 1 ∧
    ([(581672437419081727, 0), (581698825698148351, 1),
      (581681233512103935, 1), (581685631558615039, 1),
      (581676835465592831, 1), (581694427651637247, 1),
      (581690029605126143, 1)] : List (Nat × Nat)).headD (0, 0)
      = (581672437419081727, 0) ∧
    ([(581672437419081727, 0), (581698825698148351, 1),
      (581681233512103935, 1), (581685631558615039, 1),
      (581676835465592831, 1), (581694427651637247, 1),
      (581690029605126143, 1)] : List (Nat × Nat)).map Prod.snd
      = 0 :: (List.range' 1 1).flatMap (fun r => List.replicate (6 * r) r) :=
  (gridDiskDistancesUnsafe_spec 581672437419081727 1).2.2
    [(581672437419081727, 0), (581698825698148351, 1),
      (581681233512103935, 1), (581685631558615039, 1),
      (581676835465592831, 1), (581694427651637247, 1),
      (581690029605126143, 1)] (by rfl)

/-- The open-addressing probe of _gridDiskDistancesInternal (algos.rs): scan
    from `off` while the slot holds a different nonzero cell. The source
    while loop steps (off + 1) % maxIdx forever; after maxIdx probes it has
    seen every slot, so `fuel = maxIdx` is exact and `none` models the source
    looping forever (a full table with no matching slot). -/
def probeLoop (maxIdx origin : Nat) :
    Nat → Nat → List (Nat × Nat) → Option Nat
  | 0, _, _ => none
  | fuel + 1, off, out =>
    if (out.getD off (0, 0)).1 ≠ 0 ∧ (out.getD off (0, 0)).1 ≠ origin then
      probeLoop maxIdx origin fuel ((off + 1) % maxIdx) out
    else some off

/-- One direction step of the neighbor loop of _gridDiskDistancesInternal
    (algos.rs): on a previous error or divergence pass it through, otherwise
    take the neighbor in direction d with fresh rotations 0 and recurse via
    `f`; a Pentagon error from the neighbor step is swallowed, any other
    error is returned. -/
def dirStep (f : Nat → Nat → List (Nat × Nat) →
      Option (Except Error (List (Nat × Nat))))
    (origin curK d : Nat)
    (acc : Option (Except Error (List (Nat × Nat)))) :
    Option (Except Error (List (Nat × Nat))) :=
  match acc with
  | none => none
  | some (.error e) => some (.error e)
  | some (.ok out) =>
    match h3NeighborRotations origin d 0 with
    | .ok result => f result.1 (curK + 1) out
    | .error e => if e = .Pentagon then some (.ok out) else some (.error e)

/-- The for loop over the six DIRECTIONS of _gridDiskDistancesInternal,
    threading the hash-set table through dirStep in list order. -/
def dirsFold (f : Nat → Nat → List (Nat × Nat) →
      Option (Except Error (List (Nat × Nat))))
    (origin curK : Nat) :
    List Nat → Option (Except Error (List (Nat × Nat))) →
      Option (Except Error (List (Nat × Nat)))
  | [], acc => acc
  | d :: rest, acc => dirsFold f origin curK rest (dirStep f origin curK d acc)

/-- _gridDiskDistancesInternal from algos.rs. The recursion depth is bounded
    by the source's curK < k guard; `fuel` carries k + 1 - curK explicitly so
    the recursion is structural (the top-level call below passes k + 1, so
    fuel never reaches 0 before the curK >= k base case). `none` models the
    source failing to terminate in the probe loop. -/
def gridDiskDistancesInternal (k maxIdx : Nat) :
    Nat → Nat → Nat → List (Nat × Nat) →
      Option (Except Error (List (Nat × Nat)))
  | 0, _, _, _ => none
  | fuel + 1, origin, curK, out =>
    match probeLoop maxIdx origin maxIdx (origin % maxIdx) out with
    | none => none
    | some off =>
      if (out.getD off (0, 0)).1 = origin ∧ (out.getD off (0, 0)).2 ≤ curK then
        some (.ok out)
      else
        let out1 := out.set off (origin, curK)
        if k ≤ curK then some (.ok out1)
        else
          dirsFold (fun o c t => gridDiskDistancesInternal k maxIdx fuel o c t)
            origin curK DIRECTIONS (some (.ok out1))

/-- gridDiskDistances from algos.rs: try gridDiskDistancesUnsafe first and
    return its result unchanged on success; on any error fall back to the
    recursive hash-set algorithm over a zero-filled table of maxGridDiskSize k
    slots, and return the nonzero entries. -/
def gridDiskDistances (origin k : Nat) :
    Option (Except Error (List (Nat × Nat))) :=
  match gridDiskDistancesUnsafe origin k with
  | .ok out => some (.ok out)
  | .error _ =>
    match gridDiskDistancesInternal k (maxGridDiskSize k) (k + 1) origin 0
        (List.replicate (maxGridDiskSize k) (0, 0)) with
    | none => none
    | some (.error e) => some (.error e)
    | some (.ok out) => some (.ok (out.filter (fun p => p.1 != 0)))

lemma dirsFold_sticky_error (f : Nat → Nat → List (Nat × Nat) →
      Option (Except Error (List (Nat × Nat)))) (origin curK : Nat) :
    ∀ l e, dirsFold f origin curK l (some (.error e)) = some (.error e) := by
  intro l
  induction l with
  | nil => intro e; rfl
  | cons d rest ih => intro e; exact ih e

lemma dirsFold_no_pentagon (f : Nat → Nat → List (Nat × Nat) →
      Option (Except Error (List (Nat × Nat)))) (origin curK : Nat)
    (hf : ∀ o c t, f o c t ≠ some (.error .Pentagon)) :
    ∀ l acc, acc ≠ some (.error .Pentagon) →
      dirsFold f origin curK l acc ≠ some (.error .Pentagon) := by
  intro l
  induction l with
  | nil => intro acc hacc; exact hacc
  | cons d rest ih =>
    intro acc hacc
    refine ih (dirStep f origin curK d acc) ?_
    match acc with
    | none => simp [dirStep]
    | some (.error e) =>
      simpa [dirStep] using hacc
    | some (.ok out) =>
      simp only [dirStep]
      cases hnb : h3NeighborRotations origin d 0 with
      | ok result => exact hf result.1 (curK + 1) out
      | error e =>
        by_cases he : e = Error.Pentagon
        · simp [he]
        · simp [he]

lemma gridDiskDistancesInternal_no_pentagon (k maxIdx : Nat) :
    ∀ fuel origin curK out,
      gridDiskDistancesInternal k maxIdx fuel origin curK out
        ≠ some (.error .Pentagon) := by
  intro fuel
  induction fuel with
  | zero => intro origin curK out; simp [gridDiskDistancesInternal]
  | succ fuel ih =>
    intro origin curK out
    simp only [gridDiskDistancesInternal]
    cases hpr : probeLoop maxIdx origin maxIdx (origin % maxIdx) out with
    | none => simp
    | some off =>
      dsimp only
      by_cases hdup : (out.getD off (0, 0)).1 = origin ∧
          (out.getD off (0, 0)).2 ≤ curK
      · rw [if_pos hdup]; simp
      · rw [if_neg hdup]
        by_cases hk : k ≤ curK
        · rw [if_pos hk]; simp
        · rw [if_neg hk]
          exact dirsFold_no_pentagon _ origin curK
            (fun o c t => ih o c t) DIRECTIONS _ (by simp)

set_option maxRecDepth 40000 in
/-- C5: gridDiskDistances first tries gridDiskDistancesUnsafe and returns its
    result unchanged when that succeeds; on any unsafe-path error it runs the
    recursive hash-set fallback, within which an error from an individual
    h3NeighborRotations step is swallowed exactly when it is the Pentagon
    error (so Pentagon never reaches the caller), while any other
    neighbor-step error is propagated to the caller of gridDiskDistances. -/
theorem gridDiskDistances_spec (origin k : Nat) :
    (∀ v, gridDiskDistancesUnsafe origin k = .ok v →
      gridDiskDistances origin k = some (.ok v)) ∧
    gridDiskDistances origin k ≠ some (.error .Pentagon) ∧
    (∀ f curK d out e, h3NeighborRotations origin d 0 = .error e →
      dirStep f origin curK d (some (.ok out)) =
        if e = .Pentagon then some (.ok out) else some (.error e)) ∧
    (∀ eu e, gridDiskDistancesUnsafe origin k = .error eu →
      gridDiskDistancesInternal k (maxGridDiskSize k) (k + 1) origin 0
        (List.replicate (maxGridDiskSize k) (0, 0)) = some (.error e) →
      gridDiskDistances origin k = some (.error e)) := by
  refine ⟨?_, ?_, ?_, ?_⟩
  · intro v h
    simp only [gridDiskDistances, h]
  · unfold gridDiskDistances
    cases hu : gridDiskDistancesUnsafe origin k with
    | ok out => simp
    | error e =>
      dsimp only
      cases hi : gridDiskDistancesInternal k (maxGridDiskSize k) (k + 1)
          origin 0 (List.replicate (maxGridDiskSize k) (0, 0)) with
      | none => simp
      | some r =>
        cases r with
        | error e2 =>
          have h2 := gridDiskDistancesInternal_no_pentagon k
            (maxGridDiskSize k) (k + 1) origin 0
            (List.replicate (maxGridDiskSize k) (0, 0))
          rw [hi] at h2
          simpa using h2
        | ok out => simp
  · intro f curK d out e h
    simp only [dirStep, h]
  · intro eu e hu hi
    simp only [gridDiskDistances, hu, hi]

set_option maxRecDepth 40000 in
theorem gridDiskDistances_spec_witness :
    gridDiskDistances 577199624117288959 0
      = some (.ok [(577199624117288959, 0)]) ∧
    gridDiskDistances 581109487465660415 1 ≠ some (.error .Pentagon) ∧
    dirStep (fun _ _ _ => none) 581109487465660415 0 1 (some (.ok []))
      = some (.ok []) ∧
    dirStep (fun _ _ _ => none) 580753245698260992 0 2 (some (.ok []))
      = some (.error .CellInvalid) ∧
    gridDiskDistances 580753245698260992 1
      = some (.error .CellInvalid) := by
  refine ⟨?_, ?_, ?_, ?_, ?_⟩
  · exact (gridDiskDistances_spec 577199624117288959 0).1
      [(577199624117288959, 0)] (by rfl)
  · exact (gridDiskDistances_spec 581109487465660415 1).2.1
  · have h := (gridDiskDistances_spec 581109487465660415 1).2.2.1
      (fun _ _ _ => none) 0 1 [] .Pentagon (by rfl)
    simpa using h
  · have h := (gridDiskDistances_spec 580753245698260992 1).2.2.1
      (fun _ _ _ => none) 0 2 [] .CellInvalid (by rfl)
    simpa using h
  · exact (gridDiskDistances_spec 580753245698260992 1).2.2.2 .CellInvalid
      .CellInvalid (by rfl) (by rfl)
